import Mathlib

/-!
# Ariadne bootloader: TFTP engine (`tftp.c`)

A shallow embedding of `processPacket` and `sendResponse` from
`hardware/ariadne/bootloaders/ariadne/tftp.c`, followed by the properties
established about them.

Conventions of the embedding.

* The target is AVR (`<avr/boot.h>`, `<avr/pgmspace.h>`): `int` is 16 bits wide,
  so a `uint16_t` operand is promoted to `unsigned int` and every arithmetic
  operation on `uint16_t` values is taken modulo `2^16`.  Arithmetic that
  involves an `address_t` operand is taken modulo the width of `address_t`.
* Machine integers are natural numbers with the reduction written out.
* Hardware side effects (watchdog, EEPROM, socket, flash, transmit) are
  recorded, in program order, as a list of `Effect`s.
* The received frame is the array `buffer` that `processPacket` fills from the
  W5100 receive ring; the ring-pointer bookkeeping, the copy of the reply
  address into the socket registers and the busy-waits on W5100 registers are
  transport details and are not modelled.
* Loops are structurally recursive on a fuel argument and return `none` when the
  fuel is exhausted; the fuel handed over by `processPacket` exceeds the number
  of values the 16-bit loop variable can take, so `none` stands for a loop
  that does not end.
-/

namespace Tftp

/-! ## Build configuration (constants and types declared outside `tftp.c`) -/

/-- Width of the type `address_t` used for `writeAddr`: `uint16_t` on devices
whose flash fits 16-bit addresses, `uint32_t` on the larger ones. -/
inductive AddressT where
  | uint16
  | uint32
deriving DecidableEq, Repr

/-- Number of values of an `address_t`. -/
def AddressT.modulus : AddressT → Nat
  | .uint16 => 65536
  | .uint32 => 4294967296

/-- Build parameters that `tftp.c` takes from headers and from other
translation units: `MAX_ADDR` and the debug/random-port switches (`tftp.h`),
`SPM_PAGESIZE` (device header), `address_t`, the EEPROM sentinel values
(`neteeprom.h`), the data port chosen by `tftpInit`, and the external
predicate `validImage` (`validate.h`), which receives the frame from
`pageBase` on. -/
structure Config where
  MAX_ADDR : Nat
  SPM_PAGESIZE : Nat
  address_t : AddressT
  DEBUG_TFTP : Bool
  TFTP_RANDOM_PORT : Bool
  tftpTransferPort : Nat
  EEPROM_IMG_OK_VALUE : Nat
  EEPROM_IMG_BAD_VALUE : Nat
  validImage : List Nat → Bool

/-- Modelled from the spec: the response codes of `tftp.h` (not part of the
sources at hand), the closed set `Ack`, `FinalAck`, `ErrorUnknown`,
`ErrorInvalidOpcode`, `ErrorFull`, `ErrorInvalidImage`, under the names the
code uses for them. -/
inductive ResponseCode where
  | ERROR_UNKNOWN
  | ERROR_INVALID
  | ACK
  | ERROR_FULL
  | FINAL_ACK
  | INVALID_IMAGE
deriving DecidableEq, Repr

/-- Modelled from the spec: TFTP opcode of a read request (RFC 1350). -/
def TFTP_OPCODE_RRQ : Nat := 1
/-- Modelled from the spec: TFTP opcode of a write request (RFC 1350). -/
def TFTP_OPCODE_WRQ : Nat := 2
/-- Modelled from the spec: TFTP opcode of a data packet (RFC 1350). -/
def TFTP_OPCODE_DATA : Nat := 3
/-- Modelled from the spec: TFTP opcode of an acknowledgment, "opcode 4". -/
def TFTP_OPCODE_ACK : Nat := 4
/-- Modelled from the spec: TFTP opcode of an error packet, "opcode 5". -/
def TFTP_OPCODE_ERROR : Nat := 5
/-- Modelled from the spec: the value the pre-filter substitutes for a rejected
opcode; it is none of the five protocol opcodes. -/
def TFTP_OPCODE_UKN : Nat := 0

/-- Modelled from the spec: size of the W5100 UDP header in front of the TFTP
packet (peer address, peer port, length). -/
def UDP_HEADER_SIZE : Nat := 8
/-- Modelled from the spec: size of the TFTP opcode field. -/
def TFTP_OPCODE_SIZE : Nat := 2
/-- Modelled from the spec: size of the TFTP block-number field. -/
def TFTP_BLOCKNO_SIZE : Nat := 2
/-- Modelled from the spec: the maximum block size, 512 bytes. -/
def TFTP_DATA_SIZE : Nat := 512

/-! ## State and effects -/

/-- The file-scope variables `lastPacket`, `highPacket`, the flag
`tftpFlashing`, and the persisted image-status byte `EEPROM_IMG_STAT`. -/
structure State where
  lastPacket : Nat
  highPacket : Nat
  imgStat : Nat
  tftpFlashing : Bool
deriving DecidableEq, Repr

/-- Externally visible actions, in the order the code performs them. -/
inductive Effect where
  | resetTick
  | eeprom_write_byte (value : Nat)
  | sockInit (port : Nat)
  | boot_page_fill (address : Nat) (data : Nat)
  | boot_page_erase (address : Nat)
  | boot_page_write (address : Nat)
  | netSend (bytes : List Nat)
  | sockClose
deriving DecidableEq, Repr

/-- Whether the effect is one of the three flash operations. -/
def Effect.isFlash : Effect → Bool
  | .boot_page_fill _ _ => true
  | .boot_page_erase _ => true
  | .boot_page_write _ => true
  | _ => false

/-- The flash address an effect operates on, if it is a flash operation. -/
def Effect.flashAddr : Effect → Option Nat
  | .boot_page_fill a _ => some a
  | .boot_page_erase a => some a
  | .boot_page_write a => some a
  | _ => none

/-- Whether the effect erases or programs a flash page. -/
def Effect.isPageCommit : Effect → Bool
  | .boot_page_erase _ => true
  | .boot_page_write _ => true
  | _ => false

/-! ## Canned error packets (`tftp.c` lines 25-39) -/

/-- The array `"\12" "\0\5" "\0\0" "Opcode?"`; the escape `\12` is octal. -/
def tftp_opcode_error_packet : List Nat :=
  [0o12, 0, 5, 0, 0] ++ "Opcode?".toList.map Char.toNat ++ [0]

/-- The array `"\x09" "\0\5" "\0\3" "Full"`. -/
def tftp_full_error_packet : List Nat :=
  [0x09, 0, 5, 0, 3] ++ "Full".toList.map Char.toNat ++ [0]

/-- The array `"\10" "\0\5" "\0\0" "Error"`; the escape `\10` is octal. -/
def tftp_unknown_error_packet : List Nat :=
  [0o10, 0, 5, 0, 0] ++ "Error".toList.map Char.toNat ++ [0]

/-- The array `"\23" "\0\5" "\0\0" "Invalid image file"`; `\23` is octal. -/
def tftp_invalid_image_packet : List Nat :=
  [0o23, 0, 5, 0, 0] ++ "Invalid image file".toList.map Char.toNat ++ [0]

/-- The macro `TFTP_OPCODE_ERROR_LEN`. -/
def TFTP_OPCODE_ERROR_LEN : Nat := 12
/-- The macro `TFTP_FULL_ERROR_LEN`. -/
def TFTP_FULL_ERROR_LEN : Nat := 9
/-- The macro `TFTP_UNKNOWN_ERROR_LEN`. -/
def TFTP_UNKNOWN_ERROR_LEN : Nat := 10
/-- The macro `TFTP_INVALID_IMAGE`, the length meant for
`tftp_invalid_image_packet`. -/
def TFTP_INVALID_IMAGE : Nat := 23

/-! ## `processPacket` -/

/-- The byte `buffer[i]` (a `uint8_t`); an index past the end of the frame
reads 0. -/
def byteAt (buffer : List Nat) (i : Nat) : Nat := buffer.getD i 0 % 256

/-- The declaration `uint16_t tftpDataLen = (buffer[6] << 8) + buffer[7]`. -/
def tftpDataLen (buffer : List Nat) : Nat :=
  (byteAt buffer 6 * 256 + byteAt buffer 7) % 65536

/-- The declaration `uint16_t tftpOpcode = (buffer[8] << 8) + buffer[9]`: the
opcode as parsed, before the pre-filter. -/
def parsedOpcode (buffer : List Nat) : Nat :=
  (byteAt buffer 8 * 256 + byteAt buffer 9) % 65536

/-- The declaration `uint16_t tftpBlock = (buffer[10] << 8) + buffer[11]`. -/
def tftpBlock (buffer : List Nat) : Nat :=
  (byteAt buffer 10 * 256 + byteAt buffer 11) % 65536

/-- The value of `tftpOpcode` after the two pre-filter statements
(lines 159-164): a DATA packet outside the block window, and any packet whose
declared length exceeds `0x200 + 4`, is reclassified as `TFTP_OPCODE_UKN`. -/
def tftpOpcode (cfg : Config) (s : State) (buffer : List Nat) : Nat :=
  let op1 :=
    if parsedOpcode buffer = TFTP_OPCODE_DATA
        ∧ (tftpBlock buffer > cfg.MAX_ADDR / 0x200
          ∨ tftpBlock buffer < s.highPacket
          ∨ tftpBlock buffer > (s.highPacket + 1) % 65536)
    then TFTP_OPCODE_UKN else parsedOpcode buffer
  if tftpDataLen buffer > 0x200 + TFTP_OPCODE_SIZE + TFTP_BLOCKNO_SIZE
  then TFTP_OPCODE_UKN else op1

/-- The port handed to `sockInit` in the WRQ and default cases:
`(buffer[4] << 8) | ~buffer[5]` converted to `uint16_t` in the
`TFTP_RANDOM_PORT` build, `tftpTransferPort` otherwise.  The operand
`~buffer[5]` is the complement of a 16-bit `int`. -/
def dataPort (cfg : Config) (buffer : List Nat) : Nat :=
  if cfg.TFTP_RANDOM_PORT then
    ((byteAt buffer 4 <<< 8) ||| (65535 - byteAt buffer 5)) % 65536
  else cfg.tftpTransferPort

/-- The assignment `packetLength = tftpDataLen - (TFTP_OPCODE_SIZE +
TFTP_BLOCKNO_SIZE)` to a `uint16_t`: the payload length before it is rounded. -/
def packetLength (buffer : List Nat) : Nat :=
  (tftpDataLen buffer + 65536 - (TFTP_OPCODE_SIZE + TFTP_BLOCKNO_SIZE)) % 65536

/-- The assignment `writeAddr = (tftpBlock - 1) << 9`: the right-hand side is
evaluated in 16-bit `unsigned int` and then converted to `address_t`. -/
def writeAddr (cfg : Config) (buffer : List Nat) : Nat :=
  ((((tftpBlock buffer + 65536 - 1) % 65536) <<< 9) % 65536) % cfg.address_t.modulus

/-- The pointer `pageBase = buffer + (UDP_HEADER_SIZE + TFTP_OPCODE_SIZE +
TFTP_BLOCKNO_SIZE)`: the frame from the start of the block data on. -/
def pageBase (buffer : List Nat) : List Nat :=
  buffer.drop (UDP_HEADER_SIZE + TFTP_OPCODE_SIZE + TFTP_BLOCKNO_SIZE)

/-- The test `(writeAddr + packetLength) > MAX_ADDR` of line 214; the sum has
type `address_t`. -/
def isFull (cfg : Config) (buffer : List Nat) : Bool :=
  decide ((writeAddr cfg buffer + packetLength buffer) % cfg.address_t.modulus > cfg.MAX_ADDR)

/-- The rounding loop `while(packetLength % SPM_PAGESIZE) packetLength++;` on
the `uint16_t` variable `packetLength`. -/
def roundLoop (spm : Nat) : Nat → Nat → Option Nat
  | 0, _ => none
  | fuel + 1, len =>
    if len % spm ≠ 0 then roundLoop spm fuel ((len + 1) % 65536) else some len

/-- The flash loop of lines 258-283, started at `offset`: one
`boot_page_fill` per 16-bit word, and an erase followed by a write of the page
just staged whenever the advanced offset is a multiple of `SPM_PAGESIZE`. -/
def flashLoop (cfg : Config) (base : List Nat) (wAddr len : Nat) :
    Nat → Nat → Option (List Effect)
  | 0, _ => none
  | fuel + 1, offset =>
    if offset < len then
      let writeValue := (byteAt base offset ||| (byteAt base (offset + 1) <<< 8)) % 65536
      let m := cfg.address_t.modulus
      let fill := Effect.boot_page_fill ((wAddr + offset) % m) writeValue
      let offset2 := (offset + 2) % 65536
      let page := (wAddr + offset2 + (m - cfg.SPM_PAGESIZE % m)) % m
      let commit :=
        if offset2 % cfg.SPM_PAGESIZE = 0 then
          [Effect.boot_page_erase page, Effect.boot_page_write page]
        else []
      (flashLoop cfg base wAddr len fuel offset2).map fun rest => fill :: (commit ++ rest)
    else some []

/-- The `TFTP_OPCODE_DATA` case of the switch (lines 204-296). -/
def processData (cfg : Config) (s : State) (buffer : List Nat) :
    Option (ResponseCode × State × List Effect) :=
  let s1 := { s with lastPacket := tftpBlock buffer }
  if isFull cfg buffer then
    some (.ERROR_FULL, s1, [.resetTick])
  else
    let returnCode0 :=
      if packetLength buffer < TFTP_DATA_SIZE then ResponseCode.FINAL_ACK else ResponseCode.ACK
    (roundLoop cfg.SPM_PAGESIZE 65537 (packetLength buffer)).bind fun len =>
      let invalid := decide (writeAddr cfg buffer = 0) && !cfg.validImage (pageBase buffer)
      if invalid && !cfg.DEBUG_TFTP then
        some (.INVALID_IMAGE, s1, [.resetTick])
      else
        let returnCode := if invalid then ResponseCode.INVALID_IMAGE else returnCode0
        (flashLoop cfg (pageBase buffer) (writeAddr cfg buffer) len 32769 0).map fun ops =>
          if returnCode = .FINAL_ACK then
            (returnCode, { s1 with imgStat := cfg.EEPROM_IMG_OK_VALUE },
              [.resetTick] ++ ops ++ [.eeprom_write_byte cfg.EEPROM_IMG_OK_VALUE])
          else (returnCode, s1, [.resetTick] ++ ops)

/-- The function `processPacket` from the parsing of the frame on: the
pre-filter, then the switch on the opcode.  The result is the return code,
the variables afterwards, and the effects; `none` stands for a loop that does
not end. -/
def processPacket (cfg : Config) (s : State) (buffer : List Nat) :
    Option (ResponseCode × State × List Effect) :=
  let op := tftpOpcode cfg s buffer
  if op = TFTP_OPCODE_RRQ then some (.ERROR_UNKNOWN, s, [])
  else if op = TFTP_OPCODE_WRQ then
    some (.ACK,
      { s with lastPacket := 0, highPacket := 0, imgStat := cfg.EEPROM_IMG_BAD_VALUE },
      [.resetTick, .eeprom_write_byte cfg.EEPROM_IMG_BAD_VALUE, .sockInit (dataPort cfg buffer)])
  else if op = TFTP_OPCODE_DATA then processData cfg s buffer
  else if op = TFTP_OPCODE_ACK then some (.ERROR_UNKNOWN, s, [])
  else if op = TFTP_OPCODE_ERROR then some (.ERROR_UNKNOWN, s, [])
  else some (.ERROR_INVALID, s, [.sockInit (dataPort cfg buffer)])

/-! ## `sendResponse` -/

/-- The four bytes stored in `txBuffer` by the `ACK`/`FINAL_ACK` cases. -/
def ackFrame (lastPacket : Nat) : List Nat :=
  [(TFTP_OPCODE_ACK >>> 8) % 256, (TFTP_OPCODE_ACK &&& 0xff) % 256,
    (lastPacket >>> 8) % 256, (lastPacket &&& 0xff) % 256]

/-- The function `sendResponse`: the variables afterwards and the
`packetLength` bytes of `txBuffer` handed to the transmit loop.  The switch has
cases for `ERROR_UNKNOWN`, `ERROR_INVALID`, `ERROR_FULL`, `ACK` (which falls
through to `FINAL_ACK`) and `FINAL_ACK`; `default:` shares the
`ERROR_UNKNOWN` body. -/
def sendResponse (s : State) (response : ResponseCode) : State × List Nat :=
  match response with
  | .ERROR_INVALID => (s, tftp_opcode_error_packet.take TFTP_OPCODE_ERROR_LEN)
  | .ERROR_FULL => (s, tftp_full_error_packet.take TFTP_FULL_ERROR_LEN)
  | .ACK =>
    let s1 := if s.lastPacket > s.highPacket then { s with highPacket := s.lastPacket } else s
    (s1, ackFrame s1.lastPacket)
  | .FINAL_ACK => (s, ackFrame s.lastPacket)
  | _ => (s, tftp_unknown_error_packet.take TFTP_UNKNOWN_ERROR_LEN)

/-- One packet handled as in `tftpPoll`: `processPacket`, then
`sendResponse` on its return code. -/
def handlePacket (cfg : Config) (s : State) (buffer : List Nat) :
    Option (ResponseCode × State × List Effect) :=
  (processPacket cfg s buffer).map fun r =>
    let sent := sendResponse r.2.1 r.1
    (r.1, sent.1, r.2.2 ++ [.netSend sent.2])

/-- A sequence of packets handled one after the other; the result lists the
return code and the effects of each packet and the variables at the end. -/
def handleAll (cfg : Config) : State → List (List Nat) →
    Option (List (ResponseCode × List Effect) × State)
  | s, [] => some ([], s)
  | s, buffer :: rest =>
    (handlePacket cfg s buffer).bind fun r =>
      (handleAll cfg r.2.1 rest).map fun t => ((r.1, r.2.2) :: t.1, t.2)

/-! ## Frames and builds used as concrete inputs -/

/-- A received frame: six bytes of peer address and port, the declared length,
the opcode, then the bytes that follow the opcode. -/
def mkFrame (len opcode : Nat) (rest : List Nat) : List Nat :=
  [192, 168, 1, 50, 0xC0, 0x01, len / 256 % 256, len % 256,
    opcode / 256 % 256, opcode % 256] ++ rest

/-- A DATA frame with declared length `len`. -/
def dataFrameLen (len block : Nat) (payload : List Nat) : List Nat :=
  mkFrame len TFTP_OPCODE_DATA ([block / 256 % 256, block % 256] ++ payload)

/-- A DATA frame whose declared length is that of its payload. -/
def dataFrame (block : Nat) (payload : List Nat) : List Nat :=
  dataFrameLen (payload.length + 4) block payload

/-- A write request with declared length `len`; `name` holds the file name
and mode strings. -/
def wrqFrameLen (len : Nat) (name : List Nat) : List Nat :=
  mkFrame len TFTP_OPCODE_WRQ name

/-- The write request for `fw.bin` in mode `octet`. -/
def wrqFrame : List Nat :=
  wrqFrameLen 15 ("fw.bin".toList.map Char.toNat ++ [0] ++ "octet".toList.map Char.toNat ++ [0])

/-- An instance of the external predicate for the concrete builds: the frame
starts with the two bytes of an AVR `JMP` instruction. -/
def jmpHeader (base : List Nat) : Bool :=
  base.getD 0 0 == 0x0C && base.getD 1 0 == 0x94

/-- A build for a device with 32 KiB of flash: 16-bit `address_t`, 128-byte
pages, application area `[0, 0x7000)`. -/
def smallBuild : Config where
  MAX_ADDR := 0x7000
  SPM_PAGESIZE := 128
  address_t := .uint16
  DEBUG_TFTP := false
  TFTP_RANDOM_PORT := false
  tftpTransferPort := 46969
  EEPROM_IMG_OK_VALUE := 0xEE
  EEPROM_IMG_BAD_VALUE := 0xFF
  validImage := jmpHeader

/-- A build for a device with 256 KiB of flash: 32-bit `address_t`, 256-byte
pages, application area `[0, 0x3E000)`. -/
def largeBuild : Config where
  MAX_ADDR := 0x3E000
  SPM_PAGESIZE := 256
  address_t := .uint32
  DEBUG_TFTP := false
  TFTP_RANDOM_PORT := false
  tftpTransferPort := 46969
  EEPROM_IMG_OK_VALUE := 0xEE
  EEPROM_IMG_BAD_VALUE := 0xFF
  validImage := jmpHeader

/-- The variables at power-on with the image-status byte `stat`. -/
def powerOn (stat : Nat) : State :=
  { lastPacket := 0, highPacket := 0, imgStat := stat, tftpFlashing := false }

/-- A 512-byte payload that starts with a `JMP` instruction. -/
def validBlock : List Nat := [0x0C, 0x94] ++ List.replicate 510 0x11

/-- A 512-byte payload that does not start with a `JMP` instruction. -/
def invalidBlock : List Nat := List.replicate 512 0x22

/-- The variables right after blocks `1..k` have each been answered `ACK`. -/
def afterBlock (k stat : Nat) : State :=
  { lastPacket := k, highPacket := k, imgStat := stat, tftpFlashing := true }

/-- An image of 130 blocks sent in order: block 1 starts with a `JMP`
instruction, blocks 1 to 129 carry 512 bytes, block 130 carries 100 bytes. -/
def largeImage : List (List Nat) :=
  dataFrame 1 validBlock
    :: ((List.range 128).map fun i => dataFrame (i + 2) invalidBlock)
    ++ [dataFrame 130 (List.replicate 100 7)]

/-- The frames are DATA packets with block numbers `k+1, k+2, ...` in this
order, each declaring 512 payload bytes. -/
def fullBlocksFrom : Nat → List (List Nat) → Bool
  | _, [] => true
  | k, f :: fs =>
    decide (parsedOpcode f = TFTP_OPCODE_DATA) && decide (tftpBlock f = k + 1)
      && decide (tftpDataLen f = 516) && fullBlocksFrom (k + 1) fs

/-- The build `smallBuild` with `TFTP_RANDOM_PORT` defined. -/
def randomPortBuild : Config := { smallBuild with TFTP_RANDOM_PORT := true }

/-- A read request for `fw.bin` in mode `octet`. -/
def rrqFrame : List Nat :=
  mkFrame 15 TFTP_OPCODE_RRQ
    ("fw.bin".toList.map Char.toNat ++ [0] ++ "octet".toList.map Char.toNat ++ [0])

/-! ## The page programming sequence, as the specification words it -/

/-- The little-endian word `buffer[12 + off] | buffer[13 + off] << 8` at block
offset `off`. -/
def payloadWord (buffer : List Nat) (off : Nat) : Nat :=
  byteAt buffer (12 + off) ||| (byteAt buffer (13 + off) <<< 8)

/-- The operations for page `k` of a block written at address `A`, following
the specification: `SPM_PAGESIZE / 2` fills at `A + k * SPM_PAGESIZE + 2 * j`
carrying the word at offset `k * SPM_PAGESIZE + 2 * j`, then one erase and one
write of the page `A + k * SPM_PAGESIZE`. -/
def pageProgram (cfg : Config) (buffer : List Nat) (A k : Nat) : List Effect :=
  (List.range (cfg.SPM_PAGESIZE / 2)).map (fun j =>
      Effect.boot_page_fill (A + k * cfg.SPM_PAGESIZE + 2 * j)
        (payloadWord buffer (k * cfg.SPM_PAGESIZE + 2 * j)))
    ++ [Effect.boot_page_erase (A + k * cfg.SPM_PAGESIZE),
        Effect.boot_page_write (A + k * cfg.SPM_PAGESIZE)]

/-- The operations for a block of rounded length `R` written at address `A`,
following the specification: the pages `k = 0 .. R / SPM_PAGESIZE - 1` in
increasing order. -/
def blockProgram (cfg : Config) (buffer : List Nat) (A R : Nat) : List Effect :=
  (List.range (R / cfg.SPM_PAGESIZE)).flatMap (pageProgram cfg buffer A)

/-! ## `tftpPoll` -/

/-- The function `tftpPoll` for a pending received-byte count `packetSize` (the
word read from `REG_S3_RX_RSR0`) and the frame `buffer` that `processPacket`
would read: the return value (0 complete, 1 ongoing), the variables afterwards
and the effects.  With no byte pending `response` keeps its initial value
`ACK`.  The loop that acknowledges the receive interrupt is a busy-wait on a
W5100 register and is not modelled. -/
def tftpPoll (cfg : Config) (s : State) (packetSize : Nat) (buffer : List Nat) :
    Option (Nat × State × List Effect) :=
  if packetSize ≠ 0 then
    (processPacket cfg { s with tftpFlashing := true } buffer).map fun r =>
      let sent := sendResponse r.2.1 r.1
      if r.1 = .FINAL_ACK then (0, sent.1, r.2.2 ++ [.netSend sent.2] ++ [.sockClose])
      else (1, sent.1, r.2.2 ++ [.netSend sent.2])
  else some (1, s, [])

/-! # Properties -/

/-! ## Ranges of the parsed fields -/

/-- The block number is a 16-bit value. -/
theorem tftpBlock_lt (buffer : List Nat) : tftpBlock buffer < 65536 := by
  unfold tftpBlock; omega

/-- The declared length is a 16-bit value. -/
theorem tftpDataLen_lt (buffer : List Nat) : tftpDataLen buffer < 65536 := by
  unfold tftpDataLen; omega

/-- The payload length is a 16-bit value. -/
theorem packetLength_lt (buffer : List Nat) : packetLength buffer < 65536 := by
  unfold packetLength; omega

/-- An `address_t` holds at least 16 bits. -/
theorem modulus_ge (a : AddressT) : 65536 ≤ a.modulus := by
  cases a <;> simp [AddressT.modulus]

/-- A declared length of at least four bytes leaves `declared - 4` payload
bytes. -/
theorem packetLength_of_len (buffer : List Nat) (h : 4 ≤ tftpDataLen buffer) :
    packetLength buffer = tftpDataLen buffer - 4 := by
  have := tftpDataLen_lt buffer
  simp only [packetLength, TFTP_OPCODE_SIZE, TFTP_BLOCKNO_SIZE]
  omega

/-! ## The pre-filter and the dispatch -/

/-- The pre-filter leaves a DATA opcode in place exactly when the block is in
the window, within the flash area, and the declared length is legal. -/
theorem tftpOpcode_data_iff (cfg : Config) (s : State) (buffer : List Nat)
    (hop : parsedOpcode buffer = TFTP_OPCODE_DATA) :
    tftpOpcode cfg s buffer = TFTP_OPCODE_DATA ↔
      (s.highPacket ≤ tftpBlock buffer ∧ tftpBlock buffer ≤ s.highPacket + 1
        ∧ s.highPacket ≠ 65535 ∧ tftpBlock buffer ≤ cfg.MAX_ADDR / 512
        ∧ tftpDataLen buffer ≤ 516) := by
  have hb := tftpBlock_lt buffer
  have hD : TFTP_OPCODE_DATA = 3 := rfl
  have hU : TFTP_OPCODE_UKN = 0 := rfl
  simp only [tftpOpcode, hop, TFTP_OPCODE_DATA, TFTP_OPCODE_UKN, TFTP_OPCODE_SIZE,
    TFTP_BLOCKNO_SIZE, true_and]
  split_ifs with h1 h2 <;> constructor <;> intro h <;> first | contradiction | omega

/-- The pre-filter leaves a write request of legal length in place. -/
theorem tftpOpcode_wrq (cfg : Config) (s : State) (buffer : List Nat)
    (hop : parsedOpcode buffer = TFTP_OPCODE_WRQ) (hlen : tftpDataLen buffer ≤ 516) :
    tftpOpcode cfg s buffer = TFTP_OPCODE_WRQ := by
  have h : ¬ tftpDataLen buffer > 512 + 2 + 2 := by omega
  simp [tftpOpcode, hop, TFTP_OPCODE_SIZE, TFTP_BLOCKNO_SIZE, h, TFTP_OPCODE_WRQ,
    TFTP_OPCODE_DATA]

/-- A packet that reaches the switch as DATA is handled by the DATA case. -/
theorem processPacket_data (cfg : Config) (s : State) (buffer : List Nat)
    (hop : tftpOpcode cfg s buffer = TFTP_OPCODE_DATA) :
    processPacket cfg s buffer = processData cfg s buffer := by
  simp [processPacket, hop, TFTP_OPCODE_DATA, TFTP_OPCODE_RRQ, TFTP_OPCODE_WRQ]

/-! ## The rounding loop -/

/-- The rounding loop ends within the fuel: it stops at a multiple of the page
size, at the latest when the 16-bit counter wraps to zero. -/
theorem roundLoop_terminates (spm : Nat) :
    ∀ fuel len, len < 65536 → (65536 - len) % 65536 < fuel →
      ∃ r, roundLoop spm fuel len = some r ∧ r < 65536 ∧ r % spm = 0 := by
  intro fuel
  induction fuel with
  | zero => intro len _ h; omega
  | succ n ih =>
    intro len hlen hfuel
    by_cases h : len % spm = 0
    · exact ⟨len, by simp [roundLoop, h], hlen, h⟩
    · have hne : len ≠ 0 := by
        rintro rfl
        simp at h
      obtain ⟨r, hr, hr2⟩ := ih ((len + 1) % 65536) (by omega) (by omega)
      exact ⟨r, by simp [roundLoop, h, hr], hr2⟩

/-- Below a multiple of the page size the loop does not overshoot it. -/
theorem roundLoop_bound (spm bound : Nat) (hb : bound % spm = 0) (hlt : bound < 65536) :
    ∀ fuel len r, len ≤ bound → roundLoop spm fuel len = some r → len ≤ r ∧ r ≤ bound := by
  intro fuel
  induction fuel with
  | zero => intro len r _ h; simp [roundLoop] at h
  | succ n ih =>
    intro len r hle h
    by_cases hm : len % spm = 0
    · simp [roundLoop, hm] at h
      omega
    · have hne : len ≠ bound := by
        rintro rfl
        exact hm hb
      simp only [roundLoop, hm, ne_eq, not_false_eq_true, if_true] at h
      have h1 : (len + 1) % 65536 = len + 1 := by omega
      rw [h1] at h
      have := ih (len + 1) r (by omega) h
      omega

/-- A length in `65532..65535`, as left by a declared length below four, is
rounded to zero when the page size is a multiple of eight. -/
theorem roundLoop_wrap (spm : Nat) (h8 : 8 ∣ spm) :
    ∀ fuel len r, 65532 ≤ len → len < 65536 → roundLoop spm fuel len = some r → r = 0 := by
  intro fuel
  induction fuel with
  | zero => intro len r _ _ h; simp [roundLoop] at h
  | succ n ih =>
    intro len r hlo hhi h
    have hm : len % spm ≠ 0 := by
      intro hz
      have h1 : 8 ∣ len := dvd_trans h8 (Nat.dvd_of_mod_eq_zero hz)
      omega
    simp only [roundLoop, hm, ne_eq, not_false_eq_true, if_true] at h
    by_cases hlast : len = 65535
    · subst hlast
      cases n with
      | zero => simp [roundLoop] at h
      | succ k =>
        simp [roundLoop] at h
        exact h.symm
    · have h1 : (len + 1) % 65536 = len + 1 := by omega
      rw [h1] at h
      exact ih (len + 1) r (by omega) (by omega) h

/-! ## The flash loop -/

/-- The flash loop ends within the fuel and emits flash operations only. -/
theorem flashLoop_terminates (cfg : Config) (base : List Nat) (wAddr len : Nat)
    (hlen : len ≤ 65534) :
    ∀ fuel offset, 0 < fuel → len + 2 ≤ offset + 2 * fuel →
      ∃ ops, flashLoop cfg base wAddr len fuel offset = some ops
        ∧ ∀ e ∈ ops, e.isFlash = true := by
  intro fuel
  induction fuel with
  | zero => intro offset h0 h; omega
  | succ n ih =>
    intro offset _ h
    by_cases hlt : offset < len
    · obtain ⟨rest, hrest, hflash⟩ := ih ((offset + 2) % 65536) (by omega) (by omega)
      refine ⟨_, by simp only [flashLoop, hlt, if_true, hrest, Option.map_some']; rfl, ?_⟩
      intro e he
      simp only [List.mem_cons, List.mem_append] at he
      rcases he with rfl | he | he
      · rfl
      · split_ifs at he
        · simp only [List.mem_cons, List.mem_singleton, List.not_mem_nil, or_false] at he
          rcases he with rfl | rfl <;> rfl
        · simp at he
      · exact hflash e he
    · exact ⟨[], by simp [flashLoop, hlt], by simp⟩

/-- The first operation of a non-empty flash loop stages the word at
`writeAddr`. -/
theorem flashLoop_head (cfg : Config) (base : List Nat) (wAddr len fuel : Nat)
    (ops : List Effect) (hlen : 0 < len)
    (h : flashLoop cfg base wAddr len fuel 0 = some ops) :
    ∃ w rest, ops = .boot_page_fill (wAddr % cfg.address_t.modulus) w :: rest := by
  cases fuel with
  | zero => simp [flashLoop] at h
  | succ n =>
    simp only [flashLoop, hlen, if_true, Option.map_eq_some'] at h
    obtain ⟨rest, -, rfl⟩ := h
    exact ⟨_, _, rfl⟩

/-- With an even page size, the flash loop erases and writes the page at
`writeAddr` once the offset has reached the page size. -/
theorem flashLoop_first_page (cfg : Config) (base : List Nat) (wAddr len : Nat)
    (hpos : 0 < cfg.SPM_PAGESIZE) (heven : 2 ∣ cfg.SPM_PAGESIZE)
    (hspm : cfg.SPM_PAGESIZE ≤ len) (hlen : len ≤ 65534) :
    ∀ fuel offset ops, offset < cfg.SPM_PAGESIZE → 2 ∣ offset →
      flashLoop cfg base wAddr len fuel offset = some ops →
      .boot_page_erase (wAddr % cfg.address_t.modulus) ∈ ops
        ∧ .boot_page_write (wAddr % cfg.address_t.modulus) ∈ ops := by
  intro fuel
  induction fuel with
  | zero => intro offset ops _ _ h; simp [flashLoop] at h
  | succ n ih =>
    intro offset ops hoff hev h
    have hlt : offset < len := by omega
    simp only [flashLoop, hlt, if_true, Option.map_eq_some'] at h
    obtain ⟨rest, hrest, rfl⟩ := h
    have hm := modulus_ge cfg.address_t
    have h2 : (offset + 2) % 65536 = offset + 2 := by omega
    rw [h2] at hrest ⊢
    by_cases hpage : offset + 2 = cfg.SPM_PAGESIZE
    · have hz : (offset + 2) % cfg.SPM_PAGESIZE = 0 := by rw [hpage]; simp
      have hsm : cfg.SPM_PAGESIZE % cfg.address_t.modulus = cfg.SPM_PAGESIZE :=
        Nat.mod_eq_of_lt (by omega)
      have hp : (wAddr + (offset + 2)
          + (cfg.address_t.modulus - cfg.SPM_PAGESIZE % cfg.address_t.modulus))
          % cfg.address_t.modulus = wAddr % cfg.address_t.modulus := by
        rw [hsm, hpage]
        have : wAddr + cfg.SPM_PAGESIZE + (cfg.address_t.modulus - cfg.SPM_PAGESIZE)
            = wAddr + cfg.address_t.modulus := by omega
        rw [this]; simp
      simp [hz, hp]
    · have hlt2 : offset + 2 < cfg.SPM_PAGESIZE := by omega
      have := ih (offset + 2) rest hlt2 (by omega) hrest
      simp [this.1, this.2]

/-- Every address the flash loop passes on is an `address_t` value. -/
theorem flashLoop_addr_lt_modulus (cfg : Config) (base : List Nat) (wAddr len : Nat) :
    ∀ fuel offset ops, flashLoop cfg base wAddr len fuel offset = some ops →
      ∀ e ∈ ops, ∀ a, e.flashAddr = some a → a < cfg.address_t.modulus := by
  have hm : 0 < cfg.address_t.modulus := lt_of_lt_of_le (by norm_num) (modulus_ge _)
  intro fuel
  induction fuel with
  | zero => intro offset ops h; simp [flashLoop] at h
  | succ n ih =>
    intro offset ops h e he a ha
    by_cases hlt : offset < len
    · simp only [flashLoop, hlt, if_true, Option.map_eq_some'] at h
      obtain ⟨rest, hrest, rfl⟩ := h
      simp only [List.mem_cons, List.mem_append] at he
      rcases he with rfl | he | he
      · simp only [Effect.flashAddr, Option.some.injEq] at ha
        subst ha
        exact Nat.mod_lt _ hm
      · split_ifs at he
        · simp only [List.mem_cons, List.mem_singleton, List.not_mem_nil, or_false] at he
          rcases he with rfl | rfl <;>
          · simp only [Effect.flashAddr, Option.some.injEq] at ha
            subst ha
            exact Nat.mod_lt _ hm
        · simp at he
      · exact ih _ rest hrest e he a ha
    · simp only [flashLoop, hlt, if_false, Option.some.injEq] at h
      subst h
      simp at he

/-- Without wrap-around the flash loop stays inside `[writeAddr, writeAddr + len)`. -/
theorem flashLoop_addr_bound (cfg : Config) (base : List Nat) (wAddr len : Nat)
    (hspm : 2 ≤ cfg.SPM_PAGESIZE) (hlen : len ≤ 65534)
    (hfit : wAddr + len ≤ cfg.address_t.modulus) :
    ∀ fuel offset ops, flashLoop cfg base wAddr len fuel offset = some ops →
      ∀ e ∈ ops, ∀ a, e.flashAddr = some a → a < wAddr + len := by
  have hm := modulus_ge cfg.address_t
  intro fuel
  induction fuel with
  | zero => intro offset ops h; simp [flashLoop] at h
  | succ n ih =>
    intro offset ops h e he a ha
    by_cases hlt : offset < len
    · simp only [flashLoop, hlt, if_true, Option.map_eq_some'] at h
      obtain ⟨rest, hrest, rfl⟩ := h
      have h2 : (offset + 2) % 65536 = offset + 2 := by omega
      rw [h2] at hrest he
      simp only [List.mem_cons, List.mem_append] at he
      rcases he with rfl | he | he
      · simp only [Effect.flashAddr, Option.some.injEq] at ha
        subst ha
        rw [Nat.mod_eq_of_lt (by omega)]
        omega
      · split_ifs at he with hz
        · have hle : cfg.SPM_PAGESIZE ≤ offset + 2 :=
            Nat.le_of_dvd (by omega) (Nat.dvd_of_mod_eq_zero hz)
          have hsm : cfg.SPM_PAGESIZE % cfg.address_t.modulus = cfg.SPM_PAGESIZE :=
            Nat.mod_eq_of_lt (by omega)
          have hp : (wAddr + (offset + 2) + (cfg.address_t.modulus - cfg.SPM_PAGESIZE %
              cfg.address_t.modulus)) % cfg.address_t.modulus
              = wAddr + (offset + 2) - cfg.SPM_PAGESIZE := by
            rw [hsm]
            have e1 : wAddr + (offset + 2) + (cfg.address_t.modulus - cfg.SPM_PAGESIZE)
                = (wAddr + (offset + 2) - cfg.SPM_PAGESIZE) + cfg.address_t.modulus := by omega
            rw [e1, Nat.add_mod_right]
            exact Nat.mod_eq_of_lt (by omega)
          rw [hp] at he
          simp only [List.mem_cons, List.mem_singleton, List.not_mem_nil, or_false] at he
          rcases he with rfl | rfl <;>
          · simp only [Effect.flashAddr, Option.some.injEq] at ha
            subst ha
            omega
        · simp at he
      · exact ih _ rest hrest e he a ha
    · simp only [flashLoop, hlt, if_false, Option.some.injEq] at h
      subst h
      simp at he

/-! ## The write address and the full check -/

/-- The number of `address_t` values is a multiple of 512. -/
theorem modulus_dvd (a : AddressT) : 512 ∣ a.modulus := by
  cases a <;> simp only [AddressT.modulus] <;> norm_num

/-- The write address is a multiple of 512. -/
theorem writeAddr_dvd (cfg : Config) (buffer : List Nat) : 512 ∣ writeAddr cfg buffer := by
  unfold writeAddr
  rw [Nat.shiftLeft_eq]
  have h1 : 512 ∣ (tftpBlock buffer + 65536 - 1) % 65536 * 2 ^ 9 := ⟨_, by ring⟩
  have h2 : 512 ∣ (tftpBlock buffer + 65536 - 1) % 65536 * 2 ^ 9 % 65536 :=
    (Nat.dvd_mod_iff (by norm_num)).2 h1
  exact (Nat.dvd_mod_iff (modulus_dvd _)).2 h2


/-- The value of `(tftpBlock - 1) << 9` for a block in `1..128`. -/
theorem writeAddr_small (cfg : Config) (buffer : List Nat)
    (h1 : 1 ≤ tftpBlock buffer) (h2 : tftpBlock buffer ≤ 128) :
    writeAddr cfg buffer = (tftpBlock buffer - 1) * 512 := by
  have hm := modulus_ge cfg.address_t
  unfold writeAddr
  rw [Nat.shiftLeft_eq]
  have e1 : (tftpBlock buffer + 65536 - 1) % 65536 = tftpBlock buffer - 1 := by omega
  rw [e1]
  have e2 : (tftpBlock buffer - 1) * 2 ^ 9 = (tftpBlock buffer - 1) * 512 := by norm_num
  rw [e2]
  have e3 : (tftpBlock buffer - 1) * 512 % 65536 = (tftpBlock buffer - 1) * 512 := by omega
  rw [e3]
  exact Nat.mod_eq_of_lt (by omega)

/-- From block 1 on, the 16-bit write address does not exceed
`(tftpBlock - 1) * 512`. -/
theorem writeAddr_le (cfg : Config) (buffer : List Nat) (h1 : 1 ≤ tftpBlock buffer) :
    writeAddr cfg buffer ≤ (tftpBlock buffer - 1) * 512 := by
  have hb := tftpBlock_lt buffer
  unfold writeAddr
  rw [Nat.shiftLeft_eq]
  have e1 : (tftpBlock buffer + 65536 - 1) % 65536 = tftpBlock buffer - 1 := by omega
  rw [e1]
  have e2 : (tftpBlock buffer - 1) * 2 ^ 9 = (tftpBlock buffer - 1) * 512 := by norm_num
  rw [e2]
  exact le_trans (Nat.mod_le _ _) (Nat.mod_le _ _)

/-- The write address is a 16-bit value. -/
theorem writeAddr_lt (cfg : Config) (buffer : List Nat) : writeAddr cfg buffer < 65536 := by
  unfold writeAddr
  exact lt_of_le_of_lt (Nat.mod_le _ _) (Nat.mod_lt _ (by norm_num))

/-- A block in `1..MAX_ADDR/512` with at most 512 payload bytes passes the
test of line 214. -/
theorem isFull_false (cfg : Config) (buffer : List Nat)
    (h1 : 1 ≤ tftpBlock buffer) (h2 : tftpBlock buffer ≤ cfg.MAX_ADDR / 512)
    (hlen : packetLength buffer ≤ 512) : isFull cfg buffer = false := by
  have hw := writeAddr_le cfg buffer h1
  have : (writeAddr cfg buffer + packetLength buffer) % cfg.address_t.modulus
      ≤ writeAddr cfg buffer + packetLength buffer := Nat.mod_le _ _
  simp only [isFull, decide_eq_false_iff_not, not_lt, ge_iff_le, gt_iff_lt]
  omega

/-! ## The DATA case -/

/-- A DATA packet that is not full, carries at most 512 payload bytes and, on
the first sector, a valid image header: both loops end, the operations are
flash operations only, and the image-status byte is written, after them, only
for a short (final) block. -/
theorem processData_accepts (cfg : Config) (s : State) (buffer : List Nat)
    (hdvd : cfg.SPM_PAGESIZE ∣ 512)
    (hfull : isFull cfg buffer = false) (hlen : packetLength buffer ≤ 512)
    (hvalid : writeAddr cfg buffer = 0 → cfg.validImage (pageBase buffer) = true) :
    ∃ len ops,
      roundLoop cfg.SPM_PAGESIZE 65537 (packetLength buffer) = some len
      ∧ packetLength buffer ≤ len ∧ len ≤ 512
      ∧ flashLoop cfg (pageBase buffer) (writeAddr cfg buffer) len 32769 0 = some ops
      ∧ (∀ e ∈ ops, e.isFlash = true)
      ∧ processData cfg s buffer = some
          (if packetLength buffer < 512 then
            (.FINAL_ACK,
              { s with lastPacket := tftpBlock buffer, imgStat := cfg.EEPROM_IMG_OK_VALUE },
              [.resetTick] ++ ops ++ [.eeprom_write_byte cfg.EEPROM_IMG_OK_VALUE])
          else (.ACK, { s with lastPacket := tftpBlock buffer }, [.resetTick] ++ ops)) := by
  obtain ⟨len, hr, -, -⟩ := roundLoop_terminates cfg.SPM_PAGESIZE 65537 (packetLength buffer)
    (packetLength_lt buffer) (by omega)
  have hb := roundLoop_bound cfg.SPM_PAGESIZE 512 (Nat.mod_eq_zero_of_dvd hdvd) (by norm_num)
    65537 (packetLength buffer) len hlen hr
  obtain ⟨ops, hops, hflash⟩ := flashLoop_terminates cfg (pageBase buffer) (writeAddr cfg buffer)
    len (by omega) 32769 0 (by norm_num) (by omega)
  refine ⟨len, ops, hr, hb.1, hb.2, hops, hflash, ?_⟩
  have hinv :
      (decide (writeAddr cfg buffer = 0) && !cfg.validImage (pageBase buffer)) = false := by
    by_cases hw : writeAddr cfg buffer = 0
    · simp [hw, hvalid hw]
    · simp [hw]
  simp only [processData, hfull, hr, Option.some_bind, hinv, hops, Option.map_some',
    TFTP_DATA_SIZE, Bool.false_and]
  by_cases hl : packetLength buffer < 512 <;> simp [hl]

/-- The next block in order, handled by `processPacket` and `sendResponse`:
a short block is answered `FINAL_ACK` and commits the image after its flash
operations, a full block is answered `ACK` and raises `highPacket`. -/
theorem handle_next_block (cfg : Config) (s : State) (buffer : List Nat) (k : Nat)
    (hdvd : cfg.SPM_PAGESIZE ∣ 512) (hs : s.highPacket = k)
    (hop : parsedOpcode buffer = TFTP_OPCODE_DATA) (hB : tftpBlock buffer = k + 1)
    (h128 : k + 1 ≤ 128) (hmax : k + 1 ≤ cfg.MAX_ADDR / 512)
    (hlen4 : 4 ≤ tftpDataLen buffer) (hlen : tftpDataLen buffer ≤ 516)
    (hvalid : k = 0 → cfg.validImage (pageBase buffer) = true) :
    ∃ ops, (∀ e ∈ ops, e.isFlash = true) ∧
      handlePacket cfg s buffer = some
        (if tftpDataLen buffer < 516 then
          (.FINAL_ACK, { s with lastPacket := k + 1, imgStat := cfg.EEPROM_IMG_OK_VALUE },
            [.resetTick] ++ ops ++
              [.eeprom_write_byte cfg.EEPROM_IMG_OK_VALUE, .netSend (ackFrame (k + 1))])
        else
          (.ACK, { s with lastPacket := k + 1, highPacket := k + 1 },
            [.resetTick] ++ ops ++ [.netSend (ackFrame (k + 1))])) := by
  have hpl := packetLength_of_len buffer hlen4
  have hopc : tftpOpcode cfg s buffer = TFTP_OPCODE_DATA :=
    (tftpOpcode_data_iff cfg s buffer hop).2 ⟨by omega, by omega, by omega, by omega, hlen⟩
  have hfull := isFull_false cfg buffer (by omega) (by omega) (by omega)
  have hwa := writeAddr_small cfg buffer (by omega) (by omega)
  have hv : writeAddr cfg buffer = 0 → cfg.validImage (pageBase buffer) = true := by
    intro h0
    apply hvalid
    rw [hwa, hB] at h0
    omega
  obtain ⟨len, ops, -, -, -, -, hflash, hpd⟩ :=
    processData_accepts cfg s buffer hdvd hfull (by omega) hv
  refine ⟨ops, hflash, ?_⟩
  rw [handlePacket, processPacket_data cfg s buffer hopc, hpd, hpl, hB]
  by_cases hl : tftpDataLen buffer < 516
  · have : tftpDataLen buffer - 4 < 512 := by omega
    simp [hl, this, sendResponse]
  · have : ¬ tftpDataLen buffer - 4 < 512 := by omega
    simp [hl, this, sendResponse, hs]

/-- In-order transfer within the first 64 KiB: from a state with
`highPacket = k`, full blocks `k+1, ..., k+n` followed by a short block
`k+n+1`, none beyond block 128 or beyond `MAX_ADDR/512`, are answered `ACK`
each and `FINAL_ACK` for the last; no block before the last writes the
image-status byte, and the last writes the OK value after its flash
operations. -/
theorem in_order_transfer_from (cfg : Config) (hdvd : cfg.SPM_PAGESIZE ∣ 512)
    (last : List Nat) :
    ∀ (frames : List (List Nat)) (k : Nat) (s : State),
      s.highPacket = k →
      k + frames.length + 1 ≤ 128 → k + frames.length + 1 ≤ cfg.MAX_ADDR / 512 →
      fullBlocksFrom k frames = true →
      parsedOpcode last = TFTP_OPCODE_DATA → tftpBlock last = k + frames.length + 1 →
      4 ≤ tftpDataLen last → tftpDataLen last < 516 →
      (k = 0 → cfg.validImage (pageBase ((frames ++ [last]).headD [])) = true) →
      ∃ init ops s',
        handleAll cfg s (frames ++ [last]) =
            some (init ++ [(.FINAL_ACK, [.resetTick] ++ ops ++
              [.eeprom_write_byte cfg.EEPROM_IMG_OK_VALUE,
                .netSend (ackFrame (k + frames.length + 1))])], s')
          ∧ init.length = frames.length
          ∧ (∀ r ∈ init, r.1 = .ACK ∧ ∀ v, .eeprom_write_byte v ∉ r.2)
          ∧ (∀ e ∈ ops, e.isFlash = true)
          ∧ s'.imgStat = cfg.EEPROM_IMG_OK_VALUE
          ∧ s'.lastPacket = k + frames.length + 1 := by
  intro frames
  induction frames with
  | nil =>
    intro k s hs h128 hmax _ hop hB hl4 hl hv
    simp only [List.length_nil, Nat.add_zero] at h128 hmax hB ⊢
    obtain ⟨ops, hflash, hh⟩ := handle_next_block cfg s last k hdvd hs hop hB h128 hmax hl4
      (by omega) (by simpa using hv)
    refine ⟨[], ops, { s with lastPacket := k + 1, imgStat := cfg.EEPROM_IMG_OK_VALUE }, ?_,
      rfl, by simp, hflash, rfl, rfl⟩
    simp [handleAll, hh, hl]
  | cons f fs ih =>
    intro k s hs h128 hmax hfull hop hB hl4 hl hv
    simp only [fullBlocksFrom, Bool.and_eq_true, decide_eq_true_eq] at hfull
    obtain ⟨⟨⟨hfop, hfB⟩, hflen⟩, hrest⟩ := hfull
    simp only [List.length_cons] at h128 hmax hB
    obtain ⟨ops1, hflash1, hh⟩ := handle_next_block cfg s f k hdvd hs hfop hfB (by omega)
      (by omega) (by omega) (by omega) (by simpa using hv)
    obtain ⟨init, ops, s', hall, hlen, hinit, hflash, hstat, hlast⟩ :=
      ih (k + 1) { s with lastPacket := k + 1, highPacket := k + 1 } rfl (by omega) (by omega)
        hrest hop (by omega) hl4 hl (by omega)
    refine ⟨(.ACK, [.resetTick] ++ ops1 ++ [.netSend (ackFrame (k + 1))]) :: init, ops, s', ?_,
      by simp [hlen], ?_, hflash, hstat, by simp only [List.length_cons]; omega⟩
    · have hk : k + 1 + fs.length + 1 = k + (fs.length + 1) + 1 := by omega
      simp [handleAll, hh, hflen, hall, hk]
    · intro r hr
      rcases List.mem_cons.1 hr with rfl | hr
      · refine ⟨rfl, ?_⟩
        intro v hmem
        simp only [List.mem_append, List.mem_singleton, List.mem_cons, List.not_mem_nil,
          or_false] at hmem
        rcases hmem with (h | h) | h
        · cases h
        · have := hflash1 _ h
          simp [Effect.isFlash] at this
        · cases h
      · exact hinit r hr

/-! ## The full error and the image-status byte -/


/-- When the test of line 214 is true, `processPacket` returns `ERROR_FULL`;
its only effect is the timer reset and only `lastPacket` changes. -/
theorem full_error_writes_nothing (cfg : Config) (s : State) (buffer : List Nat)
    (hop : tftpOpcode cfg s buffer = TFTP_OPCODE_DATA) (hfull : isFull cfg buffer = true) :
    processPacket cfg s buffer =
      some (.ERROR_FULL, { s with lastPacket := tftpBlock buffer }, [.resetTick]) := by
  rw [processPacket_data cfg s buffer hop]
  simp [processData, hfull]

/-- The DATA case leaves the image-status byte alone unless it returns
`FINAL_ACK`. -/
theorem processData_imgStat (cfg : Config) (s : State) (buffer : List Nat)
    (r : ResponseCode × State × List Effect)
    (h : processData cfg s buffer = some r) (hr : r.1 ≠ .FINAL_ACK) :
    r.2.1.imgStat = s.imgStat := by
  unfold processData at h
  by_cases hfull : isFull cfg buffer = true
  · simp only [hfull, if_true, Option.some.injEq] at h
    subst h; rfl
  · simp only [hfull, Bool.false_eq_true, if_false, Option.bind_eq_some] at h
    obtain ⟨len, -, h⟩ := h
    by_cases hinv : (decide (writeAddr cfg buffer = 0) && !cfg.validImage (pageBase buffer)
        && !cfg.DEBUG_TFTP) = true
    · simp only [hinv, if_true, Option.some.injEq] at h
      subst h; rfl
    · simp only [hinv, Bool.false_eq_true, if_false, Option.map_eq_some'] at h
      obtain ⟨ops, -, h⟩ := h
      subst h
      split_ifs at hr ⊢ with h1 h2 h3 h4 h5
      · exact False.elim h2
      · rfl
      · exact absurd rfl hr
      · exact absurd rfl h4
      · exact False.elim h5
      · rfl

/-- Unless it returns `FINAL_ACK`, `processPacket` leaves the image-status byte
alone or writes the Bad value to it. -/
theorem processPacket_imgStat (cfg : Config) (s : State) (buffer : List Nat)
    (r : ResponseCode × State × List Effect)
    (h : processPacket cfg s buffer = some r) (hr : r.1 ≠ .FINAL_ACK) :
    r.2.1.imgStat = s.imgStat ∨ r.2.1.imgStat = cfg.EEPROM_IMG_BAD_VALUE := by
  unfold processPacket at h
  simp only at h
  split_ifs at h
  · cases h; exact Or.inl rfl
  · cases h; exact Or.inr rfl
  · exact Or.inl (processData_imgStat cfg s buffer r h hr)
  · cases h; exact Or.inl rfl
  · cases h; exact Or.inl rfl
  · cases h; exact Or.inl rfl

/-- The function `sendResponse` does not touch the image-status byte. -/
theorem sendResponse_imgStat (s : State) (response : ResponseCode) :
    (sendResponse s response).1.imgStat = s.imgStat := by
  cases response <;> simp only [sendResponse]
  split_ifs <;> rfl

/-- Once the image-status byte holds the Bad value, as after an accepted write
request, it keeps that value over every sequence of handled packets none of
which is answered `FINAL_ACK`. -/
theorem sentinel_bad_until_final_ack (cfg : Config) :
    ∀ (frames : List (List Nat)) (s : State) (res : List (ResponseCode × List Effect))
      (s' : State),
      s.imgStat = cfg.EEPROM_IMG_BAD_VALUE →
      handleAll cfg s frames = some (res, s') →
      (∀ r ∈ res, r.1 ≠ .FINAL_ACK) →
      s'.imgStat = cfg.EEPROM_IMG_BAD_VALUE := by
  intro frames
  induction frames with
  | nil =>
    intro s res s' hs h _
    simp only [handleAll, Option.some.injEq, Prod.mk.injEq] at h
    rw [← h.2]; exact hs
  | cons f fs ih =>
    intro s res s' hs h hres
    simp only [handleAll, Option.bind_eq_some, Option.map_eq_some'] at h
    obtain ⟨r, hr, t, ht, heq⟩ := h
    simp only [Prod.mk.injEq] at heq
    obtain ⟨hres1, hst⟩ := heq
    subst hres1 hst
    simp only [handlePacket, Option.map_eq_some'] at hr
    obtain ⟨p, hp, rfl⟩ := hr
    have hne : p.1 ≠ .FINAL_ACK := hres (p.1, _) (List.mem_cons_self _ _)
    have h1 := processPacket_imgStat cfg s f p hp hne
    have h2 := sendResponse_imgStat p.2.1 p.1
    refine ih _ t.1 t.2 ?_ ht ?_
    · simp only
      rw [h2]
      rcases h1 with h1 | h1
      · rw [h1]; exact hs
      · exact h1
    · intro r hr
      exact hres r (List.mem_cons_of_mem _ hr)


/-! ## The flash bound -/

/-- A packet dispatched to the DATA case was parsed as DATA, lies within the
flash area and declares a legal length. -/
theorem tftpOpcode_data_imp (cfg : Config) (s : State) (buffer : List Nat)
    (h : tftpOpcode cfg s buffer = TFTP_OPCODE_DATA) :
    parsedOpcode buffer = TFTP_OPCODE_DATA ∧ tftpBlock buffer ≤ cfg.MAX_ADDR / 512
      ∧ tftpDataLen buffer ≤ 516 := by
  have hD : TFTP_OPCODE_DATA = 3 := rfl
  have hU : TFTP_OPCODE_UKN = 0 := rfl
  have hop : parsedOpcode buffer = TFTP_OPCODE_DATA := by
    simp only [tftpOpcode] at h
    split_ifs at h with h1 h2
    · omega
    · omega
    · exact h
  exact ⟨hop, ((tftpOpcode_data_iff cfg s buffer hop).1 h).2.2.2⟩

/-- The effects of the DATA case: the timer reset alone, or the timer reset,
the operations of the flash loop and, possibly, the commit of the image. -/
theorem processData_effects (cfg : Config) (s : State) (buffer : List Nat)
    (r : ResponseCode × State × List Effect) (h : processData cfg s buffer = some r) :
    r.2.2 = [.resetTick] ∨
      ∃ len ops, isFull cfg buffer = false
        ∧ roundLoop cfg.SPM_PAGESIZE 65537 (packetLength buffer) = some len
        ∧ flashLoop cfg (pageBase buffer) (writeAddr cfg buffer) len 32769 0 = some ops
        ∧ (r.2.2 = [.resetTick] ++ ops
          ∨ r.2.2 = [.resetTick] ++ ops ++ [.eeprom_write_byte cfg.EEPROM_IMG_OK_VALUE]) := by
  unfold processData at h
  by_cases hfull : isFull cfg buffer = true
  · simp only [hfull, if_true, Option.some.injEq] at h
    subst h; exact Or.inl rfl
  · simp only [hfull, Bool.false_eq_true, if_false, Option.bind_eq_some] at h
    obtain ⟨len, hround, h⟩ := h
    by_cases hinv : (decide (writeAddr cfg buffer = 0) && !cfg.validImage (pageBase buffer)
        && !cfg.DEBUG_TFTP) = true
    · simp only [hinv, if_true, Option.some.injEq] at h
      subst h; exact Or.inl rfl
    · simp only [hinv, Bool.false_eq_true, if_false, Option.map_eq_some'] at h
      obtain ⟨ops, hops, h⟩ := h
      subst h
      refine Or.inr ⟨len, ops, by simpa using hfull, hround, hops, ?_⟩
      split_ifs <;> first | exact Or.inl rfl | exact Or.inr rfl


/-- Flash bound away from block 0 on 16-bit builds: when the page size is a
multiple of 8 and divides 512 and `MAX_ADDR`, every packet whose block number
is at least 1, and every packet on a build with 32-bit `address_t`, makes
`processPacket` pass only addresses below `MAX_ADDR` to `boot_page_fill`,
`boot_page_erase` and `boot_page_write`. -/
theorem flash_bound_from_block_one (cfg : Config) (s : State) (buffer : List Nat)
    (r : ResponseCode × State × List Effect)
    (h8 : 8 ∣ cfg.SPM_PAGESIZE) (hdvd : cfg.SPM_PAGESIZE ∣ 512)
    (hmax : cfg.SPM_PAGESIZE ∣ cfg.MAX_ADDR)
    (hB : 1 ≤ tftpBlock buffer ∨ cfg.address_t = .uint32)
    (h : processPacket cfg s buffer = some r) :
    ∀ e ∈ r.2.2, ∀ a, e.flashAddr = some a → a < cfg.MAX_ADDR := by
  intro e he a ha
  have hne1 : e ≠ .resetTick := by
    rintro rfl
    simp [Effect.flashAddr] at ha
  have hne2 : ∀ v, e ≠ .eeprom_write_byte v := by
    rintro v rfl
    simp [Effect.flashAddr] at ha
  have hne3 : ∀ p, e ≠ .sockInit p := by
    rintro p rfl
    simp [Effect.flashAddr] at ha
  by_cases hop : tftpOpcode cfg s buffer = TFTP_OPCODE_DATA
  · obtain ⟨-, hBmax, hlen516⟩ := tftpOpcode_data_imp cfg s buffer hop
    rw [processPacket_data cfg s buffer hop] at h
    rcases processData_effects cfg s buffer r h with heff | ⟨len, ops, hfull, hround, hops, heff⟩
    · rw [heff] at he
      simp [hne1] at he
    · have heops : e ∈ ops := by
        rcases heff with heff | heff <;>
        · rw [heff] at he
          simpa [hne1, hne2] using he
      have hpos : 0 < cfg.SPM_PAGESIZE := Nat.pos_of_dvd_of_pos hdvd (by norm_num)
      have h2 : 2 ≤ cfg.SPM_PAGESIZE := le_trans (by norm_num) (Nat.le_of_dvd hpos h8)
      rcases Nat.lt_or_ge (tftpDataLen buffer) 4 with hshort | hlen
      · have hpl : 65532 ≤ packetLength buffer := by
          simp only [packetLength, TFTP_OPCODE_SIZE, TFTP_BLOCKNO_SIZE]
          omega
        have hzero := roundLoop_wrap cfg.SPM_PAGESIZE h8 65537 (packetLength buffer) len hpl
          (packetLength_lt buffer) hround
        subst hzero
        simp [flashLoop] at hops
        subst hops
        simp at heops
      · have hpl := packetLength_of_len buffer hlen
        have hb := roundLoop_bound cfg.SPM_PAGESIZE 512 (Nat.mod_eq_zero_of_dvd hdvd)
          (by norm_num) 65537 (packetLength buffer) len (by omega) hround
        by_cases hbig : cfg.address_t.modulus ≤ cfg.MAX_ADDR
        · exact lt_of_lt_of_le
            (flashLoop_addr_lt_modulus cfg _ _ _ 32769 0 ops hops e heops a ha) hbig
        · have hm := modulus_ge cfg.address_t
          have hwdvd := writeAddr_dvd cfg buffer
          have hwlt := writeAddr_lt cfg buffer
          have hfit : writeAddr cfg buffer + packetLength buffer < cfg.address_t.modulus := by
            rcases hB with hB | hB
            · have hwle := writeAddr_le cfg buffer hB
              rcases Nat.lt_or_ge (cfg.MAX_ADDR) 65536 with hsmall | hlarge
              · have : tftpBlock buffer ≤ 127 := by omega
                omega
              · obtain ⟨q, hq⟩ := hwdvd
                omega
            · rw [hB]
              simp only [AddressT.modulus]
              omega
          have hnotfull : writeAddr cfg buffer + packetLength buffer ≤ cfg.MAX_ADDR := by
            have := hfull
            simp only [isFull, decide_eq_false_iff_not, not_lt, gt_iff_lt] at this
            rwa [Nat.mod_eq_of_lt hfit] at this
          have hspmw : cfg.SPM_PAGESIZE ∣ writeAddr cfg buffer := dvd_trans hdvd hwdvd
          have hlenle : writeAddr cfg buffer + len ≤ cfg.MAX_ADDR := by
            rcases Nat.lt_or_ge (cfg.MAX_ADDR - writeAddr cfg buffer) 65536 with hs | hl
            · have hdiff : (cfg.MAX_ADDR - writeAddr cfg buffer) % cfg.SPM_PAGESIZE = 0 :=
                Nat.mod_eq_zero_of_dvd (Nat.dvd_sub' hmax hspmw)
              have := roundLoop_bound cfg.SPM_PAGESIZE (cfg.MAX_ADDR - writeAddr cfg buffer)
                hdiff hs 65537 (packetLength buffer) len (by omega) hround
              omega
            · omega
          have := flashLoop_addr_bound cfg (pageBase buffer) (writeAddr cfg buffer) len h2
            (by omega) (by omega) 32769 0 ops hops e heops a ha
          omega
  · unfold processPacket at h
    simp only [hop, if_false] at h
    split_ifs at h <;>
    · cases h
      simp [hne1, hne2, hne3] at he

set_option maxRecDepth 1000000 in
/-- An instance of `in_order_transfer_from`: blocks 1 (512 bytes, valid header)
and 2 (300 bytes) from the power-on state. -/
theorem in_order_transfer_from_example :
    ∃ init ops s',
      handleAll smallBuild (powerOn 0xFF)
          ([dataFrame 1 validBlock] ++ [dataFrame 2 (List.replicate 300 7)]) =
          some (init ++ [(.FINAL_ACK, [.resetTick] ++ ops ++
            [.eeprom_write_byte smallBuild.EEPROM_IMG_OK_VALUE,
              .netSend (ackFrame (0 + [dataFrame 1 validBlock].length + 1))])], s')
        ∧ init.length = [dataFrame 1 validBlock].length
        ∧ (∀ r ∈ init, r.1 = .ACK ∧ ∀ v, .eeprom_write_byte v ∉ r.2)
        ∧ (∀ e ∈ ops, e.isFlash = true)
        ∧ s'.imgStat = smallBuild.EEPROM_IMG_OK_VALUE
        ∧ s'.lastPacket = 0 + [dataFrame 1 validBlock].length + 1 :=
  in_order_transfer_from smallBuild (by decide) (dataFrame 2 (List.replicate 300 7))
    [dataFrame 1 validBlock] 0 (powerOn 0xFF) (by decide) (by decide) (by decide) (by decide)
    (by decide) (by decide) (by decide) (by decide) (by decide)

/-! ## The dispatch, the variables and termination -/

/-- The switch of `processPacket` falls to `default:` for every opcode value
other than the five protocol opcodes. -/
theorem processPacket_default (cfg : Config) (s : State) (buffer : List Nat)
    (h1 : tftpOpcode cfg s buffer ≠ TFTP_OPCODE_RRQ)
    (h2 : tftpOpcode cfg s buffer ≠ TFTP_OPCODE_WRQ)
    (h3 : tftpOpcode cfg s buffer ≠ TFTP_OPCODE_DATA)
    (h4 : tftpOpcode cfg s buffer ≠ TFTP_OPCODE_ACK)
    (h5 : tftpOpcode cfg s buffer ≠ TFTP_OPCODE_ERROR) :
    processPacket cfg s buffer = some (.ERROR_INVALID, s, [.sockInit (dataPort cfg buffer)]) := by
  simp [processPacket, h1, h2, h3, h4, h5]

/-- The value of the opcode after the pre-filter: zero when a guard fires, the
parsed opcode otherwise. -/
theorem tftpOpcode_cases (cfg : Config) (s : State) (buffer : List Nat) :
    tftpOpcode cfg s buffer = TFTP_OPCODE_UKN ∨ tftpOpcode cfg s buffer = parsedOpcode buffer := by
  simp only [tftpOpcode]
  split_ifs <;> simp

/-- A packet of legal length whose parsed opcode is not DATA keeps its
opcode. -/
theorem tftpOpcode_of_not_data (cfg : Config) (s : State) (buffer : List Nat)
    (hop : parsedOpcode buffer ≠ TFTP_OPCODE_DATA) (hlen : tftpDataLen buffer ≤ 516) :
    tftpOpcode cfg s buffer = parsedOpcode buffer := by
  have h : ¬ tftpDataLen buffer > 512 + 2 + 2 := by omega
  simp [tftpOpcode, TFTP_OPCODE_SIZE, TFTP_BLOCKNO_SIZE, h, hop]


/-- The function `sendResponse` keeps `lastPacket` and the image-status byte;
it raises `highPacket` to `lastPacket` in the `ACK` case only. -/
theorem sendResponse_vars (s : State) (response : ResponseCode) :
    (sendResponse s response).1.lastPacket = s.lastPacket
      ∧ (sendResponse s response).1.highPacket
          = (if response = .ACK then max s.highPacket s.lastPacket else s.highPacket) := by
  cases response
  case ACK =>
    by_cases h : s.lastPacket > s.highPacket
    · simp [sendResponse, h, max_eq_right (le_of_lt h)]
    · simp [sendResponse, h, max_eq_left (not_lt.1 h)]
  all_goals simp [sendResponse]

/-- The DATA case sets `lastPacket` to the block number and keeps
`highPacket`. -/
theorem processData_vars (cfg : Config) (s : State) (buffer : List Nat)
    (r : ResponseCode × State × List Effect) (h : processData cfg s buffer = some r) :
    r.2.1.lastPacket = tftpBlock buffer ∧ r.2.1.highPacket = s.highPacket := by
  unfold processData at h
  by_cases hfull : isFull cfg buffer = true
  · simp only [hfull, if_true, Option.some.injEq] at h
    subst h; exact ⟨rfl, rfl⟩
  · simp only [hfull, Bool.false_eq_true, if_false, Option.bind_eq_some] at h
    obtain ⟨len, -, h⟩ := h
    by_cases hinv : (decide (writeAddr cfg buffer = 0) && !cfg.validImage (pageBase buffer)
        && !cfg.DEBUG_TFTP) = true
    · simp only [hinv, if_true, Option.some.injEq] at h
      subst h; exact ⟨rfl, rfl⟩
    · simp only [hinv, Bool.false_eq_true, if_false, Option.map_eq_some'] at h
      obtain ⟨ops, -, h⟩ := h
      subst h
      split_ifs <;> exact ⟨rfl, rfl⟩

/-- The DATA case never diverges when the page size is even. -/
theorem processData_total (cfg : Config) (s : State) (buffer : List Nat)
    (heven : 2 ∣ cfg.SPM_PAGESIZE) :
    ∃ r, processData cfg s buffer = some r := by
  obtain ⟨len, hr, hlt, hmod⟩ := roundLoop_terminates cfg.SPM_PAGESIZE 65537
    (packetLength buffer) (packetLength_lt buffer) (by omega)
  have h2 : 2 ∣ len := dvd_trans heven (Nat.dvd_of_mod_eq_zero hmod)
  obtain ⟨ops, hops, -⟩ := flashLoop_terminates cfg (pageBase buffer) (writeAddr cfg buffer)
    len (by omega) 32769 0 (by norm_num) (by omega)
  unfold processData
  by_cases hfull : isFull cfg buffer = true
  · simp only [hfull, if_true]
    exact ⟨_, rfl⟩
  · simp only [hfull, Bool.false_eq_true, if_false, hr, Option.some_bind, hops, Option.map_some']
    by_cases hinv : (decide (writeAddr cfg buffer = 0) && !cfg.validImage (pageBase buffer)
        && !cfg.DEBUG_TFTP) = true
    · simp only [hinv, if_true]
      exact ⟨_, rfl⟩
    · simp only [hinv, Bool.false_eq_true, if_false]
      exact ⟨_, rfl⟩

/-- The function `processPacket` returns for every state and frame when the
page size is even. -/
theorem processPacket_total (cfg : Config) (s : State) (buffer : List Nat)
    (heven : 2 ∣ cfg.SPM_PAGESIZE) :
    ∃ r, processPacket cfg s buffer = some r := by
  unfold processPacket
  simp only
  split_ifs
  · exact ⟨_, rfl⟩
  · exact ⟨_, rfl⟩
  · exact processData_total cfg s buffer heven
  · exact ⟨_, rfl⟩
  · exact ⟨_, rfl⟩
  · exact ⟨_, rfl⟩

/-- A packet that is not a write request leaves `highPacket` alone in
`processPacket`, and changes `lastPacket`, to its block number, exactly when it
is dispatched to the DATA case. -/
theorem processPacket_vars (cfg : Config) (s : State) (buffer : List Nat)
    (r : ResponseCode × State × List Effect)
    (hw : parsedOpcode buffer ≠ TFTP_OPCODE_WRQ) (h : processPacket cfg s buffer = some r) :
    r.2.1.highPacket = s.highPacket
      ∧ (if tftpOpcode cfg s buffer = TFTP_OPCODE_DATA then r.2.1.lastPacket = tftpBlock buffer
          else r.2.1.lastPacket = s.lastPacket) := by
  have hw2 : tftpOpcode cfg s buffer ≠ TFTP_OPCODE_WRQ := by
    rcases tftpOpcode_cases cfg s buffer with hu | hp
    · rw [hu]; decide
    · rw [hp]; exact hw
  by_cases hd : tftpOpcode cfg s buffer = TFTP_OPCODE_DATA
  · rw [processPacket_data cfg s buffer hd] at h
    have := processData_vars cfg s buffer r h
    simp only [hd, if_true]
    exact ⟨this.2, this.1⟩
  · unfold processPacket at h
    simp only [hw2, hd, if_false] at h
    simp only [hd, if_false]
    split_ifs at h <;>
    · cases h
      exact ⟨rfl, rfl⟩

set_option maxRecDepth 100000 in
/-- The value of `(b4 << 8) | ~b5` as a `uint16_t`: the complement sets the
whole high byte. -/
theorem random_port_value (b4 b5 : Nat) (h4 : b4 < 256) (h5 : b5 < 256) :
    ((b4 <<< 8) ||| (65535 - b5)) % 65536 = 0xFF00 + (255 - b5) := by
  have l1 : ∀ c < 256, 0xFF00 + c = 0xFF00 ||| c := by decide
  have l2 : ∀ b < 256, (b <<< 8) ||| 0xFF00 = 0xFF00 := by decide
  have e : 65535 - b5 = 0xFF00 + (255 - b5) := by omega
  rw [e, l1 (255 - b5) (by omega), ← Nat.lor_assoc, l2 b4 h4, ← l1 (255 - b5) (by omega)]
  omega


/-! ## The flash loop against the page programming sequence -/

/-- The byte at index `i` from `pageBase` on is `buffer[12 + i]`. -/
theorem byteAt_pageBase (buffer : List Nat) (i : Nat) :
    byteAt (pageBase buffer) i = byteAt buffer (12 + i) := by
  simp [byteAt, pageBase, List.getD_eq_getElem?_getD, List.getElem?_drop, UDP_HEADER_SIZE,
    TFTP_OPCODE_SIZE, TFTP_BLOCKNO_SIZE]

/-- The staged word is a 16-bit value, the little-endian pair of payload
bytes. -/
theorem writeValue_eq (buffer : List Nat) (off : Nat) :
    (byteAt (pageBase buffer) off ||| (byteAt (pageBase buffer) (off + 1) <<< 8)) % 65536
      = payloadWord buffer off := by
  have h1 : byteAt buffer (12 + off) < 2 ^ 16 :=
    lt_of_lt_of_le (Nat.mod_lt _ (by norm_num)) (by norm_num)
  have h2 : byteAt buffer (13 + off) <<< 8 < 2 ^ 16 := by
    rw [Nat.shiftLeft_eq]
    have : byteAt buffer (13 + off) < 256 := Nat.mod_lt _ (by norm_num)
    omega
  rw [byteAt_pageBase, byteAt_pageBase]
  have e : 12 + (off + 1) = 13 + off := by omega
  rw [e]
  exact Nat.mod_eq_of_lt (Nat.or_lt_two_pow h1 h2)


/-- One iteration of the flash loop, with the address and the word written as
the specification does. -/
theorem flashLoop_step (cfg : Config) (buffer : List Nat) (A len fuel offset : Nat)
    (hlt : offset < len) (hlen : len ≤ 65534) (hfit : A + len ≤ cfg.address_t.modulus) :
    flashLoop cfg (pageBase buffer) A len (fuel + 1) offset =
      (flashLoop cfg (pageBase buffer) A len fuel (offset + 2)).map fun rest =>
        Effect.boot_page_fill (A + offset) (payloadWord buffer offset) ::
          ((if (offset + 2) % cfg.SPM_PAGESIZE = 0 then
              [Effect.boot_page_erase
                  ((A + (offset + 2) + (cfg.address_t.modulus
                    - cfg.SPM_PAGESIZE % cfg.address_t.modulus)) % cfg.address_t.modulus),
                Effect.boot_page_write
                  ((A + (offset + 2) + (cfg.address_t.modulus
                    - cfg.SPM_PAGESIZE % cfg.address_t.modulus)) % cfg.address_t.modulus)]
            else []) ++ rest) := by
  have h2 : (offset + 2) % 65536 = offset + 2 := by omega
  have h3 : (A + offset) % cfg.address_t.modulus = A + offset := Nat.mod_eq_of_lt (by omega)
  simp only [flashLoop, hlt, if_true, writeValue_eq, h2, h3]

/-- The flash loop across one page: started at index `j` of page `k`, it stages
the remaining words of the page, erases and writes the page, and goes on at the
start of page `k + 1`. -/
theorem flashLoop_page (cfg : Config) (buffer : List Nat) (A n h k : Nat)
    (hS : cfg.SPM_PAGESIZE = 2 * h) (hk : k < n)
    (hlen : n * cfg.SPM_PAGESIZE ≤ 65534)
    (hfit : A + n * cfg.SPM_PAGESIZE ≤ cfg.address_t.modulus) :
    ∀ d j, j + d = h → 0 < d → ∀ fuel,
      flashLoop cfg (pageBase buffer) A (n * cfg.SPM_PAGESIZE) (fuel + d)
          (k * cfg.SPM_PAGESIZE + 2 * j) =
        (flashLoop cfg (pageBase buffer) A (n * cfg.SPM_PAGESIZE) fuel
          ((k + 1) * cfg.SPM_PAGESIZE)).map fun rest =>
          (List.range' j d).map (fun i =>
              Effect.boot_page_fill (A + k * cfg.SPM_PAGESIZE + 2 * i)
                (payloadWord buffer (k * cfg.SPM_PAGESIZE + 2 * i)))
            ++ [Effect.boot_page_erase (A + k * cfg.SPM_PAGESIZE),
                Effect.boot_page_write (A + k * cfg.SPM_PAGESIZE)] ++ rest := by
  have hm := modulus_ge cfg.address_t
  have hkS : (k + 1) * cfg.SPM_PAGESIZE = k * cfg.SPM_PAGESIZE + cfg.SPM_PAGESIZE := by ring
  have hle : (k + 1) * cfg.SPM_PAGESIZE ≤ n * cfg.SPM_PAGESIZE := Nat.mul_le_mul_right _ hk
  intro d
  induction d with
  | zero => intro j _ h0; omega
  | succ d ih =>
    intro j hj _ fuel
    have hoff : k * cfg.SPM_PAGESIZE + 2 * j < n * cfg.SPM_PAGESIZE := by omega
    have hfuel : fuel + (d + 1) = (fuel + d) + 1 := by omega
    rw [hfuel, flashLoop_step cfg buffer A _ _ _ hoff hlen hfit]
    have hnext : k * cfg.SPM_PAGESIZE + 2 * j + 2 = k * cfg.SPM_PAGESIZE + 2 * (j + 1) := by
      omega
    rw [hnext]
    have hmod : (k * cfg.SPM_PAGESIZE + 2 * (j + 1)) % cfg.SPM_PAGESIZE
        = (2 * (j + 1)) % cfg.SPM_PAGESIZE := by
      rw [Nat.mul_comm k, Nat.mul_add_mod]
    by_cases hd : d = 0
    · subst hd
      have hend : k * cfg.SPM_PAGESIZE + 2 * (j + 1) = (k + 1) * cfg.SPM_PAGESIZE := by omega
      have hz : (k * cfg.SPM_PAGESIZE + 2 * (j + 1)) % cfg.SPM_PAGESIZE = 0 := by
        rw [hmod]
        have : 2 * (j + 1) = cfg.SPM_PAGESIZE := by omega
        rw [this, Nat.mod_self]
      have hsm : cfg.SPM_PAGESIZE % cfg.address_t.modulus = cfg.SPM_PAGESIZE :=
        Nat.mod_eq_of_lt (by omega)
      have hp : (A + (k * cfg.SPM_PAGESIZE + 2 * (j + 1))
          + (cfg.address_t.modulus - cfg.SPM_PAGESIZE % cfg.address_t.modulus))
          % cfg.address_t.modulus = A + k * cfg.SPM_PAGESIZE := by
        rw [hsm]
        have e1 : A + (k * cfg.SPM_PAGESIZE + 2 * (j + 1))
            + (cfg.address_t.modulus - cfg.SPM_PAGESIZE)
            = (A + k * cfg.SPM_PAGESIZE) + cfg.address_t.modulus := by omega
        rw [e1, Nat.add_mod_right]
        exact Nat.mod_eq_of_lt (by omega)
      simp only [hz, if_true, hp, Nat.add_zero]
      rw [hend]
      congr 1
      funext rest
      simp [Nat.add_assoc]
    · have hlt : 2 * (j + 1) < cfg.SPM_PAGESIZE := by omega
      have hnz : ¬ (k * cfg.SPM_PAGESIZE + 2 * (j + 1)) % cfg.SPM_PAGESIZE = 0 := by
        rw [hmod, Nat.mod_eq_of_lt hlt]
        omega
      simp only [hnz, if_false, List.nil_append]
      rw [ih (j + 1) (by omega) (by omega) fuel, Option.map_map]
      congr 1
      funext rest
      simp [List.range'_succ, Nat.add_assoc]

/-- The operations for page `k`, with the fills listed from index 0. -/
theorem pageProgram_eq (cfg : Config) (buffer : List Nat) (A k h : Nat)
    (hS : cfg.SPM_PAGESIZE = 2 * h) :
    pageProgram cfg buffer A k =
      (List.range' 0 h).map (fun i =>
          Effect.boot_page_fill (A + k * cfg.SPM_PAGESIZE + 2 * i)
            (payloadWord buffer (k * cfg.SPM_PAGESIZE + 2 * i)))
        ++ [Effect.boot_page_erase (A + k * cfg.SPM_PAGESIZE),
            Effect.boot_page_write (A + k * cfg.SPM_PAGESIZE)] := by
  have : cfg.SPM_PAGESIZE / 2 = h := by omega
  simp only [pageProgram, this, List.range_eq_range']

/-- The flash loop across the pages: started at the first word of page `k`, it
programs the pages `k, k + 1, ..., n - 1` one after the other and ends. -/
theorem flashLoop_pages (cfg : Config) (buffer : List Nat) (A n h : Nat)
    (hS : cfg.SPM_PAGESIZE = 2 * h) (hh : 0 < h)
    (hlen : n * cfg.SPM_PAGESIZE ≤ 65534)
    (hfit : A + n * cfg.SPM_PAGESIZE ≤ cfg.address_t.modulus) :
    ∀ p k, k + p = n → ∀ e,
      flashLoop cfg (pageBase buffer) A (n * cfg.SPM_PAGESIZE) (p * h + 1 + e)
          (k * cfg.SPM_PAGESIZE) =
        some ((List.range' k p).flatMap (pageProgram cfg buffer A)) := by
  intro p
  induction p with
  | zero =>
    intro k hk e
    have hkn : k = n := by omega
    subst hkn
    have hf : 0 * h + 1 + e = e + 1 := by omega
    rw [hf]
    simp [flashLoop]
  | succ p ih =>
    intro k hk e
    have hf : (p + 1) * h + 1 + e = (p * h + 1 + e) + h := by
      rw [Nat.succ_mul]; omega
    have h0 : k * cfg.SPM_PAGESIZE = k * cfg.SPM_PAGESIZE + 2 * 0 := by omega
    rw [hf, h0, flashLoop_page cfg buffer A n h k hS (by omega) hlen hfit h 0 (by omega) hh,
      ih (k + 1) (by omega) e]
    simp only [Option.map_some', List.range'_succ, List.flatMap_cons,
      pageProgram_eq cfg buffer A k h hS, List.append_assoc]

/-- The rounding loop only stops at a multiple of the page size. -/
theorem roundLoop_mod (spm : Nat) :
    ∀ fuel len r, roundLoop spm fuel len = some r → r % spm = 0 := by
  intro fuel
  induction fuel with
  | zero => intro len r h; simp [roundLoop] at h
  | succ n ih =>
    intro len r h
    by_cases hm : len % spm = 0
    · simp [roundLoop, hm] at h
      rw [← h]; exact hm
    · simp only [roundLoop, hm, ne_eq, not_false_eq_true, if_true] at h
      exact ih _ r h

/-- The rounding loop stops at the least multiple of the page size that is
not below the length, when that multiple is a 16-bit value. -/
theorem roundLoop_least (spm : Nat) (hpos : 0 < spm) (fuel len r : Nat)
    (hlen : len + spm ≤ 65536) (h : roundLoop spm fuel len = some r) :
    len ≤ r ∧ r < len + spm ∧ r % spm = 0 := by
  have hq1 := Nat.mul_div_le (len + spm - 1) spm
  have hq2 := Nat.lt_mul_div_succ (len + spm - 1) hpos
  have hb : (spm * ((len + spm - 1) / spm)) % spm = 0 := Nat.mul_mod_right _ _
  rw [Nat.mul_add, Nat.mul_one] at hq2
  generalize spm * ((len + spm - 1) / spm) = b at hq1 hq2 hb
  have hbound := roundLoop_bound spm b hb (by omega) fuel len r (by omega) h
  exact ⟨hbound.1, by omega, roundLoop_mod spm fuel len r h⟩

/-- The flash loop of a DATA packet over a rounded length `R` of at most 512
that is a multiple of the even page size: it ends within its fuel and emits
exactly the page programming sequence `blockProgram`. -/
theorem flashLoop_blockProgram (cfg : Config) (buffer : List Nat) (R : Nat)
    (heven : 2 ∣ cfg.SPM_PAGESIZE) (hpos : 0 < cfg.SPM_PAGESIZE)
    (hR : R ≤ 512) (hmod : R % cfg.SPM_PAGESIZE = 0) :
    flashLoop cfg (pageBase buffer) (writeAddr cfg buffer) R 32769 0
      = some (blockProgram cfg buffer (writeAddr cfg buffer) R) := by
  obtain ⟨h, hS⟩ := heven
  have hRn : R / cfg.SPM_PAGESIZE * cfg.SPM_PAGESIZE = R :=
    Nat.div_mul_cancel (Nat.dvd_of_mod_eq_zero hmod)
  have hm := modulus_ge cfg.address_t
  have hA : writeAddr cfg buffer + R ≤ cfg.address_t.modulus := by
    obtain ⟨q, hq⟩ := writeAddr_dvd cfg buffer
    have := writeAddr_lt cfg buffer
    omega
  have hnh : R / cfg.SPM_PAGESIZE * h ≤ 256 := by
    have e : R / cfg.SPM_PAGESIZE * cfg.SPM_PAGESIZE = 2 * (R / cfg.SPM_PAGESIZE * h) := by
      rw [hS]; ring
    omega
  have hB := flashLoop_pages cfg buffer (writeAddr cfg buffer) (R / cfg.SPM_PAGESIZE) h hS
    (by omega) (by omega) (by omega) (R / cfg.SPM_PAGESIZE) 0 (by omega)
    (32768 - R / cfg.SPM_PAGESIZE * h)
  have hfuel : R / cfg.SPM_PAGESIZE * h + 1 + (32768 - R / cfg.SPM_PAGESIZE * h) = 32769 := by
    omega
  rw [hRn, hfuel, Nat.zero_mul] at hB
  rw [hB, blockProgram, List.range_eq_range']

/-- The page programming sequence of a full block starts with the fill of the
first payload word at the write address. -/
theorem blockProgram_head (cfg : Config) (buffer : List Nat) (A : Nat)
    (heven : 2 ∣ cfg.SPM_PAGESIZE) (hdvd : cfg.SPM_PAGESIZE ∣ 512) :
    (blockProgram cfg buffer A 512).head?
      = some (.boot_page_fill A (payloadWord buffer 0)) := by
  have hpos : 0 < cfg.SPM_PAGESIZE := Nat.pos_of_dvd_of_pos hdvd (by norm_num)
  have hle : cfg.SPM_PAGESIZE ≤ 512 := Nat.le_of_dvd (by norm_num) hdvd
  obtain ⟨h, hS⟩ := heven
  obtain ⟨n, hn⟩ : ∃ n, 512 / cfg.SPM_PAGESIZE = n + 1 :=
    ⟨512 / cfg.SPM_PAGESIZE - 1, by
      have := Nat.div_pos hle hpos
      omega⟩
  obtain ⟨m, hm⟩ : ∃ m, cfg.SPM_PAGESIZE / 2 = m + 1 := ⟨cfg.SPM_PAGESIZE / 2 - 1, by omega⟩
  simp [blockProgram, pageProgram, hn, hm, List.range_succ_eq_map]

/-! ## The claims -/

set_option maxRecDepth 1000000 in
/-- C1, failing input.  On the build with 32-bit `address_t` and
`MAX_ADDR = 0x3E000`, the 130 blocks of `largeImage` are handled in order from
`lastPacket = highPacket = 0`; block 1 passes `validImage`, blocks 1 to 129
carry 512 bytes, block 130 fewer, and `130 ≤ MAX_ADDR / 512`.  Blocks 1 to 128
are answered `ACK`, but block 129, whose write address `(129 - 1) << 9` is
zero in 16-bit arithmetic, is validated as a first sector and answered
`INVALID_IMAGE`; block 130 is then rejected with `ERROR_INVALID`, and the
image-status byte is never written with the OK value. -/
theorem in_order_transfer_stops_at_block_129 :
    largeImage.length = 130 ∧ 130 ≤ largeBuild.MAX_ADDR / 512
      ∧ largeBuild.validImage (pageBase (dataFrame 1 validBlock)) = true
      ∧ writeAddr largeBuild (dataFrame 129 invalidBlock) = 0
      ∧ (handleAll largeBuild (powerOn 0xFF) largeImage).map
          (fun r => (r.1.map (fun x => x.1), r.2.imgStat))
        = some (List.replicate 128 .ACK ++ [.INVALID_IMAGE, .ERROR_INVALID], 0xFF) := by
  decide

set_option maxRecDepth 1000000 in
/-- C2, failing input.  From the power-on state with the image-status byte at
the OK value, a single DATA packet for block 1 (no write request before it) is
answered `ACK`, erases and writes the four pages of the first 512 bytes, and
leaves the image-status byte at the OK value, not the Bad value. -/
theorem sentinel_ok_during_partial_write :
    (handleAll smallBuild (powerOn smallBuild.EEPROM_IMG_OK_VALUE) [dataFrame 1 validBlock]).map
        (fun r => (r.1.map (fun x => (x.1, x.2.filter Effect.isPageCommit)), r.2.imgStat))
      = some ([(.ACK,
          [.boot_page_erase 0, .boot_page_write 0, .boot_page_erase 128, .boot_page_write 128,
            .boot_page_erase 256, .boot_page_write 256, .boot_page_erase 384,
            .boot_page_write 384])], smallBuild.EEPROM_IMG_OK_VALUE)
      ∧ smallBuild.EEPROM_IMG_OK_VALUE ≠ smallBuild.EEPROM_IMG_BAD_VALUE := by
  decide

set_option maxRecDepth 1000000 in
/-- C3, failing input.  On the build with 16-bit `address_t` and
`MAX_ADDR = 0x7000` (a multiple of 512 and of the page size), a DATA packet
with block number 0 and 512 payload bytes received in the state
`lastPacket = highPacket = 0` passes the pre-filter and the full check and is
answered `ACK`; the pages it erases and writes start at `0xFE00`, outside
`[0, MAX_ADDR)`. -/
theorem block_zero_programs_beyond_max_addr :
    smallBuild.MAX_ADDR % 512 = 0 ∧ smallBuild.MAX_ADDR % smallBuild.SPM_PAGESIZE = 0
      ∧ (processPacket smallBuild (powerOn 0xFF) (dataFrame 0 validBlock)).map
          (fun r => (r.1, r.2.2.filter Effect.isPageCommit, r.2.2.filterMap Effect.flashAddr
            |>.all fun a => decide (smallBuild.MAX_ADDR ≤ a)))
        = some (.ACK,
            [.boot_page_erase 0xFE00, .boot_page_write 0xFE00, .boot_page_erase 0xFE80,
              .boot_page_write 0xFE80, .boot_page_erase 0xFF00, .boot_page_write 0xFF00,
              .boot_page_erase 0xFF80, .boot_page_write 0xFF80], true) := by
  decide

/-- C4, as amended.  A DATA packet is dispatched to the DATA case exactly when
its block number `K` satisfies `highPacket ≤ K ≤ highPacket + 1`, `highPacket`
is not 65535 (where the 16-bit sum `highPacket + 1` wraps to zero),
`K ≤ MAX_ADDR / 512`, and the declared length is at most 516. -/
theorem data_dispatch_iff (cfg : Config) (s : State) (buffer : List Nat)
    (hop : parsedOpcode buffer = TFTP_OPCODE_DATA) :
    tftpOpcode cfg s buffer = TFTP_OPCODE_DATA ↔
      (s.highPacket ≤ tftpBlock buffer ∧ tftpBlock buffer ≤ s.highPacket + 1
        ∧ s.highPacket ≠ 65535 ∧ tftpBlock buffer ≤ cfg.MAX_ADDR / 512
        ∧ tftpDataLen buffer ≤ 516) :=
  tftpOpcode_data_iff cfg s buffer hop

set_option maxRecDepth 1000000 in
/-- C4, witness: block 1 with 512 bytes in the power-on state. -/
theorem data_dispatch_iff_witness :
    parsedOpcode (dataFrame 1 validBlock) = TFTP_OPCODE_DATA
      ∧ (tftpOpcode smallBuild (powerOn 0xFF) (dataFrame 1 validBlock) = TFTP_OPCODE_DATA ↔
        ((powerOn 0xFF).highPacket ≤ tftpBlock (dataFrame 1 validBlock)
          ∧ tftpBlock (dataFrame 1 validBlock) ≤ (powerOn 0xFF).highPacket + 1
          ∧ (powerOn 0xFF).highPacket ≠ 65535
          ∧ tftpBlock (dataFrame 1 validBlock) ≤ smallBuild.MAX_ADDR / 512
          ∧ tftpDataLen (dataFrame 1 validBlock) ≤ 516)) :=
  ⟨by decide, data_dispatch_iff smallBuild (powerOn 0xFF) (dataFrame 1 validBlock) (by decide)⟩

set_option maxRecDepth 1000000 in
/-- C4, counterexample.  Two DATA packets whose block number lies in the
window `highPacket ≤ K ≤ highPacket + 1` and which are nevertheless
reclassified: block 1 with a declared length of 517, and block 57 after block
56 when `MAX_ADDR / 512 = 56`. -/
theorem window_not_sufficient :
    (parsedOpcode (dataFrameLen 517 1 []) = TFTP_OPCODE_DATA
      ∧ (powerOn 0xFF).highPacket ≤ tftpBlock (dataFrameLen 517 1 [])
      ∧ tftpBlock (dataFrameLen 517 1 []) ≤ (powerOn 0xFF).highPacket + 1
      ∧ tftpOpcode smallBuild (powerOn 0xFF) (dataFrameLen 517 1 []) ≠ TFTP_OPCODE_DATA)
    ∧ (parsedOpcode (dataFrame 57 validBlock) = TFTP_OPCODE_DATA
      ∧ (afterBlock 56 0xFF).highPacket ≤ tftpBlock (dataFrame 57 validBlock)
      ∧ tftpBlock (dataFrame 57 validBlock) ≤ (afterBlock 56 0xFF).highPacket + 1
      ∧ tftpOpcode smallBuild (afterBlock 56 0xFF) (dataFrame 57 validBlock)
          ≠ TFTP_OPCODE_DATA) := by
  decide

/-- C5, as amended.  In a state reached right after DATA block `K` (with
`1 ≤ K ≤ MAX_ADDR / 512`, `K < 65535`) was answered `ACK`, so that
`lastPacket = highPacket = K`, a resent DATA packet with block number `K` and
512 payload bytes (passing `validImage` when its write address is 0) is
accepted: `processPacket` returns `ACK`, leaves the variables as they are, and
its effects are the timer reset followed by exactly the page programming
sequence `blockProgram` of the 512 payload bytes from the write address: for
each page in turn the fills with the words of the packet, the erase, the
write.  That sequence starts with the fill of the first payload word at the
write address and contains the erase and the write of the page there;
`highPacket` is unchanged by the following `sendResponse`.  The page size is
even and divides 512. -/
theorem resent_block_accepted (cfg : Config) (s : State) (buffer : List Nat)
    (heven : 2 ∣ cfg.SPM_PAGESIZE) (hdvd : cfg.SPM_PAGESIZE ∣ 512)
    (hop : parsedOpcode buffer = TFTP_OPCODE_DATA) (hlen : tftpDataLen buffer = 516)
    (hK1 : 1 ≤ tftpBlock buffer) (hK2 : tftpBlock buffer ≤ cfg.MAX_ADDR / 512)
    (hK3 : tftpBlock buffer < 65535)
    (hlast : s.lastPacket = tftpBlock buffer) (hhigh : s.highPacket = tftpBlock buffer)
    (hvalid : writeAddr cfg buffer = 0 → cfg.validImage (pageBase buffer) = true) :
    processPacket cfg s buffer
        = some (.ACK, s, [.resetTick] ++ blockProgram cfg buffer (writeAddr cfg buffer) 512)
      ∧ (blockProgram cfg buffer (writeAddr cfg buffer) 512).head?
          = some (.boot_page_fill (writeAddr cfg buffer) (payloadWord buffer 0))
      ∧ .boot_page_erase (writeAddr cfg buffer) ∈ blockProgram cfg buffer (writeAddr cfg buffer) 512
      ∧ .boot_page_write (writeAddr cfg buffer) ∈ blockProgram cfg buffer (writeAddr cfg buffer) 512
      ∧ (sendResponse s .ACK).1 = s := by
  have hpl : packetLength buffer = 512 := by
    rw [packetLength_of_len buffer (by omega)]; omega
  have hpos : 0 < cfg.SPM_PAGESIZE := Nat.pos_of_dvd_of_pos hdvd (by norm_num)
  have hle : cfg.SPM_PAGESIZE ≤ 512 := Nat.le_of_dvd (by norm_num) hdvd
  have hopc : tftpOpcode cfg s buffer = TFTP_OPCODE_DATA :=
    (tftpOpcode_data_iff cfg s buffer hop).2 ⟨by omega, by omega, by omega, hK2, by omega⟩
  have hfull := isFull_false cfg buffer hK1 hK2 (by omega)
  obtain ⟨len, ops, hr, hl1, hl2, hops, -, hpd⟩ :=
    processData_accepts cfg s buffer hdvd hfull (by omega) hvalid
  have hlen512 : len = 512 := by omega
  subst hlen512
  have hprog := flashLoop_blockProgram cfg buffer 512 heven hpos (le_refl _)
    (Nat.mod_eq_zero_of_dvd hdvd)
  have hopseq : ops = blockProgram cfg buffer (writeAddr cfg buffer) 512 :=
    Option.some.inj (hops.symm.trans hprog)
  subst hopseq
  have hwm : writeAddr cfg buffer % cfg.address_t.modulus = writeAddr cfg buffer :=
    Nat.mod_eq_of_lt (lt_of_lt_of_le (writeAddr_lt cfg buffer) (modulus_ge _))
  have hpage := flashLoop_first_page cfg (pageBase buffer) (writeAddr cfg buffer) 512 hpos heven
    hle (by norm_num) 32769 0 _ hpos (by norm_num) hops
  rw [hwm] at hpage
  have hs : { s with lastPacket := tftpBlock buffer } = s := by
    cases s; simp only [State.mk.injEq, and_true] at hlast ⊢; exact hlast.symm
  refine ⟨?_, blockProgram_head cfg buffer _ heven hdvd, hpage.1, hpage.2, ?_⟩
  · rw [processPacket_data cfg s buffer hopc, hpd, hpl, hs]
    simp
  · simp [sendResponse, hlast, hhigh]

set_option maxRecDepth 1000000 in
/-- C5, witness: block 1 resent in the state after block 1 was answered
`ACK`; the four pages of the block are staged, erased and written again. -/
theorem resent_block_accepted_witness :
    processPacket smallBuild (afterBlock 1 0xFF) (dataFrame 1 validBlock)
        = some (.ACK, afterBlock 1 0xFF,
            [.resetTick] ++ blockProgram smallBuild (dataFrame 1 validBlock)
              (writeAddr smallBuild (dataFrame 1 validBlock)) 512)
      ∧ (blockProgram smallBuild (dataFrame 1 validBlock)
            (writeAddr smallBuild (dataFrame 1 validBlock)) 512).head?
          = some (.boot_page_fill (writeAddr smallBuild (dataFrame 1 validBlock))
              (payloadWord (dataFrame 1 validBlock) 0))
      ∧ .boot_page_erase (writeAddr smallBuild (dataFrame 1 validBlock))
          ∈ blockProgram smallBuild (dataFrame 1 validBlock)
              (writeAddr smallBuild (dataFrame 1 validBlock)) 512
      ∧ .boot_page_write (writeAddr smallBuild (dataFrame 1 validBlock))
          ∈ blockProgram smallBuild (dataFrame 1 validBlock)
              (writeAddr smallBuild (dataFrame 1 validBlock)) 512
      ∧ (sendResponse (afterBlock 1 0xFF) .ACK).1 = afterBlock 1 0xFF :=
  resent_block_accepted smallBuild (afterBlock 1 0xFF) (dataFrame 1 validBlock)
    (by decide) (by decide) (by decide) (by decide) (by decide) (by decide) (by decide)
    (by decide) (by decide) (by decide)

set_option maxRecDepth 1000000 in
/-- C5, counterexample.  The scenario WRQ, DATA(block 1, 512 bytes, valid
header), DATA(block 1, 512 bytes) resent: each of the three packets is
answered `ACK`, the resent block performs flash operations like the first one,
and `highPacket` is 1 at the end. -/
theorem resent_block_not_rejected :
    (handleAll smallBuild (powerOn 0xEE)
        [wrqFrame, dataFrame 1 validBlock, dataFrame 1 validBlock]).map
      (fun r => (r.1.map (fun x => (x.1, x.2.any Effect.isFlash)), r.2.highPacket))
      = some ([(.ACK, false), (.ACK, true), (.ACK, true)], 1) := by
  decide

/-- C6, as amended.  For every prior state and every packet whose opcode field
is WRQ and whose declared length is at most 516, whatever the file name and
mode, `processPacket` returns `ACK`, sets `lastPacket = highPacket = 0`,
resets the timer, writes the Bad value to the image-status byte and
re-initialises the data socket; the following `sendResponse` emits the
acknowledgment for block 0 and leaves the variables as they are. -/
theorem wrq_accepted (cfg : Config) (s : State) (buffer : List Nat)
    (hop : parsedOpcode buffer = TFTP_OPCODE_WRQ) (hlen : tftpDataLen buffer ≤ 516) :
    processPacket cfg s buffer =
        some (.ACK,
          { s with lastPacket := 0, highPacket := 0, imgStat := cfg.EEPROM_IMG_BAD_VALUE },
          [.resetTick, .eeprom_write_byte cfg.EEPROM_IMG_BAD_VALUE,
            .sockInit (dataPort cfg buffer)])
      ∧ sendResponse
          { s with lastPacket := 0, highPacket := 0, imgStat := cfg.EEPROM_IMG_BAD_VALUE } .ACK =
        ({ s with lastPacket := 0, highPacket := 0, imgStat := cfg.EEPROM_IMG_BAD_VALUE },
          [0, 4, 0, 0]) := by
  constructor
  · simp [processPacket, tftpOpcode_wrq cfg s buffer hop hlen, TFTP_OPCODE_WRQ, TFTP_OPCODE_RRQ]
  · simp only [sendResponse, ackFrame, TFTP_OPCODE_ACK, gt_iff_lt, lt_self_iff_false, if_false]
    rfl

set_option maxRecDepth 1000000 in
/-- C6, witness: the write request for `fw.bin` received after block 3 of an
earlier transfer. -/
theorem wrq_accepted_witness :
    parsedOpcode wrqFrame = TFTP_OPCODE_WRQ ∧ tftpDataLen wrqFrame ≤ 516
      ∧ processPacket smallBuild (afterBlock 3 0xEE) wrqFrame =
        some (.ACK,
          { afterBlock 3 0xEE with
            lastPacket := 0, highPacket := 0, imgStat := smallBuild.EEPROM_IMG_BAD_VALUE },
          [.resetTick, .eeprom_write_byte smallBuild.EEPROM_IMG_BAD_VALUE,
            .sockInit (dataPort smallBuild wrqFrame)])
      ∧ sendResponse
          { afterBlock 3 0xEE with
            lastPacket := 0, highPacket := 0, imgStat := smallBuild.EEPROM_IMG_BAD_VALUE } .ACK =
        ({ afterBlock 3 0xEE with
            lastPacket := 0, highPacket := 0, imgStat := smallBuild.EEPROM_IMG_BAD_VALUE },
          [0, 4, 0, 0]) :=
  ⟨by decide, by decide, wrq_accepted smallBuild (afterBlock 3 0xEE) wrqFrame (by decide)
    (by decide)⟩

set_option maxRecDepth 1000000 in
/-- C6, counterexample.  A write request whose declared length is 517 is
reclassified by the length pre-filter: `processPacket` returns
`ERROR_INVALID`, keeps `lastPacket = highPacket = 3` and does not write the
image-status byte. -/
theorem wrq_oversized_rejected :
    parsedOpcode (wrqFrameLen 517 [0x66, 0x77, 0]) = TFTP_OPCODE_WRQ
      ∧ processPacket smallBuild (afterBlock 3 0xEE) (wrqFrameLen 517 [0x66, 0x77, 0]) =
        some (.ERROR_INVALID, afterBlock 3 0xEE, [.sockInit 46969]) := by
  decide

set_option maxRecDepth 1000000 in
/-- C7, failing inputs.  Block 129 after block 128 on the build with 32-bit
`address_t` passes the pre-filter and gets the write address 0, whereas
`(129 - 1) * 512 = 65536`; block 0 in the state `lastPacket = highPacket = 0`
passes the pre-filter (on either build) and gets the write address `0xFE00`. -/
theorem write_address_wraps :
    (tftpOpcode largeBuild (afterBlock 128 0xFF) (dataFrame 129 validBlock) = TFTP_OPCODE_DATA
      ∧ writeAddr largeBuild (dataFrame 129 validBlock) = 0
      ∧ (tftpBlock (dataFrame 129 validBlock) - 1) * 512 = 65536)
    ∧ (tftpOpcode smallBuild (powerOn 0xFF) (dataFrame 0 validBlock) = TFTP_OPCODE_DATA
      ∧ writeAddr smallBuild (dataFrame 0 validBlock) = 0xFE00
      ∧ tftpOpcode largeBuild (powerOn 0xFF) (dataFrame 0 validBlock) = TFTP_OPCODE_DATA
      ∧ writeAddr largeBuild (dataFrame 0 validBlock) = 0xFE00
      ∧ (tftpBlock (dataFrame 0 validBlock) - 1) * 512 = 0) := by
  decide

set_option maxRecDepth 1000000 in
/-- C8, failing input.  On the build with 16-bit `address_t`, the DATA packet
with block number 0 and 512 payload bytes is dispatched to the DATA case with
`writeAddr + payload_len = 0xFE00 + 512 > MAX_ADDR`, yet the sum of line 214
wraps to zero: `processPacket` returns `ACK`, not `ERROR_FULL`, and performs
flash operations. -/
theorem full_check_wraps :
    tftpOpcode smallBuild (powerOn 0xFF) (dataFrame 0 validBlock) = TFTP_OPCODE_DATA
      ∧ writeAddr smallBuild (dataFrame 0 validBlock)
          + (tftpDataLen (dataFrame 0 validBlock) - 4) > smallBuild.MAX_ADDR
      ∧ isFull smallBuild (dataFrame 0 validBlock) = false
      ∧ (processPacket smallBuild (powerOn 0xFF) (dataFrame 0 validBlock)).map
          (fun r => (r.1, r.2.2.any Effect.isFlash)) = some (.ACK, true) := by
  decide

/-- C9.  In the non-debug build, a DATA packet dispatched to the DATA case
with write address 0 that passes the full check and whose payload fails
`validImage` makes `processPacket` return `INVALID_IMAGE`; the only effect is
the timer reset (no flash fill, erase or write, no write of the image-status
byte) and only `lastPacket` changes.  The payload length is unrestricted, so
this covers a short, would-be final block. -/
theorem invalid_first_block (cfg : Config) (s : State) (buffer : List Nat)
    (hdbg : cfg.DEBUG_TFTP = false)
    (hop : tftpOpcode cfg s buffer = TFTP_OPCODE_DATA)
    (hwa : writeAddr cfg buffer = 0)
    (hfull : isFull cfg buffer = false)
    (hinv : cfg.validImage (pageBase buffer) = false) :
    processPacket cfg s buffer =
      some (.INVALID_IMAGE, { s with lastPacket := tftpBlock buffer }, [.resetTick]) := by
  obtain ⟨r, hr, -⟩ := roundLoop_terminates cfg.SPM_PAGESIZE 65537 (packetLength buffer)
    (packetLength_lt buffer) (by omega)
  rw [processPacket_data cfg s buffer hop]
  simp [processData, hfull, hr, hwa, hinv, hdbg]

set_option maxRecDepth 1000000 in
/-- C9, witness: after a write request (sentinel Bad), DATA block 1 with 512
bytes and an invalid header is answered `INVALID_IMAGE`; the sentinel stays
Bad and there is no flash operation. -/
theorem invalid_first_block_witness :
    processPacket smallBuild (powerOn smallBuild.EEPROM_IMG_BAD_VALUE) (dataFrame 1 invalidBlock) =
      some (.INVALID_IMAGE,
        { powerOn smallBuild.EEPROM_IMG_BAD_VALUE with
          lastPacket := tftpBlock (dataFrame 1 invalidBlock) }, [.resetTick]) :=
  invalid_first_block smallBuild (powerOn smallBuild.EEPROM_IMG_BAD_VALUE)
    (dataFrame 1 invalidBlock) (by decide) (by decide) (by decide) (by decide) (by decide)

set_option maxRecDepth 1000000 in
/-- C10, failing input.  For the response code `INVALID_IMAGE` the switch of
`sendResponse` has no case: the default sends the bytes of
`tftp_unknown_error_packet`, the same as for `ERROR_UNKNOWN`, and not the
`Invalid image file` template. -/
theorem invalid_image_sends_unknown_error (s : State) :
    (sendResponse s .INVALID_IMAGE).2 = (sendResponse s .ERROR_UNKNOWN).2
      ∧ (sendResponse s .INVALID_IMAGE).2
          = tftp_unknown_error_packet.take TFTP_UNKNOWN_ERROR_LEN
      ∧ (sendResponse s .INVALID_IMAGE).2
          ≠ tftp_invalid_image_packet.take TFTP_INVALID_IMAGE := by
  refine ⟨rfl, rfl, ?_⟩
  simp only [sendResponse]
  decide

/-- C11, failing input.  For each of the three error response codes the bytes
that `sendResponse` hands to the transport are the first `packetLength` bytes
of the template array, and every template array starts with a length byte
(`"\10"`, `"\12"`, `"\x09"`) that `memcpy_P` copies with the rest: the frame
is `08 00 05 00 00 Error`, `0A 00 05 00 00 Opcode?`, `09 00 05 00 03 Full`.
Its first two bytes are never `00 05`; the opcode 5 is the second and third
byte. -/
theorem error_packets_start_with_length_byte (s : State) :
    (sendResponse s .ERROR_UNKNOWN).2
        = [0x08, 0x00, 0x05, 0x00, 0x00] ++ "Error".toList.map Char.toNat
      ∧ (sendResponse s .ERROR_INVALID).2
          = [0x0A, 0x00, 0x05, 0x00, 0x00] ++ "Opcode?".toList.map Char.toNat
      ∧ (sendResponse s .ERROR_FULL).2
          = [0x09, 0x00, 0x05, 0x00, 0x03] ++ "Full".toList.map Char.toNat
      ∧ ∀ rc ∈ [ResponseCode.ERROR_UNKNOWN, ResponseCode.ERROR_INVALID, ResponseCode.ERROR_FULL],
          (sendResponse s rc).2.take 2 ≠ [0x00, 0x05] := by
  refine ⟨?_, ?_, ?_, ?_⟩
  · simp only [sendResponse]
    decide
  · simp only [sendResponse]
    decide
  · simp only [sendResponse]
    decide
  · intro rc hrc
    simp only [List.mem_cons, List.mem_singleton, List.not_mem_nil, or_false] at hrc
    rcases hrc with h | h | h <;> subst h <;> simp only [sendResponse] <;> decide

/-- C12.  For every state, so for every value of `lastPacket`, and for both
response codes `ACK` and `FINAL_ACK`, `sendResponse` sends exactly the four
bytes `0x00`, `0x04`, the high byte of `lastPacket`, the low byte of
`lastPacket`. -/
theorem ack_frame_bytes (s : State) :
    (sendResponse s .ACK).2 = [0x00, 0x04, s.lastPacket / 256 % 256, s.lastPacket % 256]
      ∧ (sendResponse s .FINAL_ACK).2
          = [0x00, 0x04, s.lastPacket / 256 % 256, s.lastPacket % 256] := by
  have h1 : ∀ x : Nat, x >>> 8 = x / 256 := fun x => by
    rw [Nat.shiftRight_eq_div_pow]
  have h2 : ∀ x : Nat, (x &&& 0xff) = x % 256 := fun x =>
    Nat.and_pow_two_sub_one_eq_mod x 8
  have hack : ∀ lp, ackFrame lp = [0x00, 0x04, lp / 256 % 256, lp % 256] := by
    intro lp
    simp only [ackFrame, h1, h2, TFTP_OPCODE_ACK]
    simp
  constructor
  · simp only [sendResponse]
    split_ifs <;> exact hack _
  · exact hack _

set_option maxRecDepth 1000000 in
/-- C13, counterexample.  The `FINAL_ACK` case of `sendResponse` is entered
below the update of `highPacket`: called with `FINAL_ACK` in a state with
`lastPacket = 2` and `highPacket = 1`, it leaves `highPacket` at 1, which is
not `max 1 2`.  The state is the one a transfer reaches: a write request,
block 1 with 512 bytes and block 2 with 300 bytes are answered `ACK`, `ACK`,
`FINAL_ACK` and end with `lastPacket = 2`, `highPacket = 1`. -/
theorem final_ack_keeps_high_packet :
    (sendResponse { lastPacket := 2, highPacket := 1, imgStat := 0xEE, tftpFlashing := true }
        .FINAL_ACK).1.highPacket = 1
      ∧ (sendResponse { lastPacket := 2, highPacket := 1, imgStat := 0xEE, tftpFlashing := true }
          .FINAL_ACK).1.highPacket ≠ max 1 2
      ∧ (handleAll smallBuild (powerOn 0xFF)
          [wrqFrame, dataFrame 1 validBlock, dataFrame 2 (List.replicate 300 7)]).map
          (fun r => (r.1.map Prod.fst, r.2.lastPacket, r.2.highPacket))
          = some ([.ACK, .ACK, .FINAL_ACK], 2, 1) := by
  decide

/-- C13, as amended.  For every state, `sendResponse` called with `ACK`
leaves `highPacket` equal to the maximum of its old value and `lastPacket`;
called with any other response code, `FINAL_ACK` included, it leaves
`highPacket` unchanged; it never changes `lastPacket`. -/
theorem high_water_mark_update (s : State) (response : ResponseCode) :
    (sendResponse s response).1.lastPacket = s.lastPacket
      ∧ (sendResponse s response).1.highPacket
          = (if response = .ACK then max s.highPacket s.lastPacket else s.highPacket) := by
  cases response
  case ACK =>
    by_cases h : s.lastPacket > s.highPacket
    · simp [sendResponse, h, max_eq_right (le_of_lt h)]
    · simp [sendResponse, h, max_eq_left (not_lt.1 h)]
  all_goals simp [sendResponse]

/-- C14.  A packet whose parsed opcode is DATA and that the pre-filter
reclassifies (block below `highPacket`, block above `highPacket + 1`, block
above `MAX_ADDR / 512`, or declared length above 516), and a packet whose
parsed opcode is none of the five protocol opcodes, make `processPacket`
return `ERROR_INVALID` with the variables unchanged; the only effect is the
re-initialisation of the data socket, so there is no flash fill, erase or
write and no write of the image-status byte. -/
theorem rejected_packets_change_nothing (cfg : Config) (s : State) (buffer : List Nat)
    (h : (parsedOpcode buffer = TFTP_OPCODE_DATA
          ∧ (tftpBlock buffer < s.highPacket ∨ tftpBlock buffer > s.highPacket + 1
            ∨ tftpBlock buffer > cfg.MAX_ADDR / 512 ∨ tftpDataLen buffer > 516))
        ∨ (parsedOpcode buffer ≠ TFTP_OPCODE_RRQ ∧ parsedOpcode buffer ≠ TFTP_OPCODE_WRQ
          ∧ parsedOpcode buffer ≠ TFTP_OPCODE_DATA ∧ parsedOpcode buffer ≠ TFTP_OPCODE_ACK
          ∧ parsedOpcode buffer ≠ TFTP_OPCODE_ERROR)) :
    processPacket cfg s buffer = some (.ERROR_INVALID, s, [.sockInit (dataPort cfg buffer)]) := by
  have hU : tftpOpcode cfg s buffer = TFTP_OPCODE_UKN → processPacket cfg s buffer
      = some (.ERROR_INVALID, s, [.sockInit (dataPort cfg buffer)]) := by
    intro hu
    apply processPacket_default <;> rw [hu] <;> decide
  rcases h with ⟨hop, hrej⟩ | ⟨h1, h2, h3, h4, h5⟩
  · apply hU
    rcases tftpOpcode_cases cfg s buffer with hu | hp
    · exact hu
    · exfalso
      rw [hop] at hp
      have := (tftpOpcode_data_iff cfg s buffer hop).1 hp
      omega
  · rcases tftpOpcode_cases cfg s buffer with hu | hp
    · exact hU hu
    · apply processPacket_default <;> rw [hp] <;> assumption

set_option maxRecDepth 1000000 in
/-- C14, witness: after block 1 has been acknowledged, DATA block 3 is
answered `ERROR_INVALID`; the variables are unchanged and the only effect is
the socket re-initialisation. -/
theorem rejected_packets_change_nothing_witness :
    processPacket smallBuild (afterBlock 1 0xFF) (dataFrame 3 validBlock)
      = some (.ERROR_INVALID, afterBlock 1 0xFF,
          [.sockInit (dataPort smallBuild (dataFrame 3 validBlock))]) :=
  rejected_packets_change_nothing smallBuild (afterBlock 1 0xFF) (dataFrame 3 validBlock)
    (Or.inl ⟨by decide, Or.inr (Or.inl (by decide))⟩)

/-- C15.  A packet whose opcode is RRQ, ACK or ERROR and whose declared length
does not exceed 516 makes `processPacket` return `ERROR_UNKNOWN` with the
variables unchanged and with no effect at all: no flash operation, no write
of the image-status byte, no socket re-initialisation. -/
theorem unsupported_opcodes_change_nothing (cfg : Config) (s : State) (buffer : List Nat)
    (hop : parsedOpcode buffer = TFTP_OPCODE_RRQ ∨ parsedOpcode buffer = TFTP_OPCODE_ACK
      ∨ parsedOpcode buffer = TFTP_OPCODE_ERROR)
    (hlen : tftpDataLen buffer ≤ 516) :
    processPacket cfg s buffer = some (.ERROR_UNKNOWN, s, []) := by
  have hnd : parsedOpcode buffer ≠ TFTP_OPCODE_DATA := by
    rcases hop with h | h | h <;> rw [h] <;> decide
  have ht := tftpOpcode_of_not_data cfg s buffer hnd hlen
  rcases hop with h | h | h <;>
    simp [processPacket, ht, h, TFTP_OPCODE_RRQ, TFTP_OPCODE_WRQ, TFTP_OPCODE_DATA,
      TFTP_OPCODE_ACK, TFTP_OPCODE_ERROR]

set_option maxRecDepth 1000000 in
/-- C15, witness: a read request received in the middle of a transfer is
answered `ERROR_UNKNOWN` and changes nothing. -/
theorem unsupported_opcodes_change_nothing_witness :
    processPacket smallBuild (afterBlock 1 0xFF) rrqFrame
      = some (.ERROR_UNKNOWN, afterBlock 1 0xFF, []) :=
  unsupported_opcodes_change_nothing smallBuild (afterBlock 1 0xFF) rrqFrame
    (Or.inl (by decide)) (by decide)

/-- C16.  When the pending received-byte count is zero `tftpPoll` returns 1
with the variables, the flashing flag included, unchanged and with no effect:
no `processPacket`, no `sendResponse`, no socket close.  Whenever `tftpPoll`
returns, the value is 0 or 1, and it is 0 exactly when a packet was pending
and `processPacket` returned `FINAL_ACK` for it, in which case the socket has
been closed.  With an even page size, the case of every AVR part,
`tftpPoll` returns for every input. -/
theorem tftpPoll_result (cfg : Config) (s : State) (packetSize : Nat) (buffer : List Nat) :
    (packetSize = 0 → tftpPoll cfg s packetSize buffer = some (1, s, []))
      ∧ (∀ res, tftpPoll cfg s packetSize buffer = some res →
          (res.1 = 0 ∨ res.1 = 1)
            ∧ (res.1 = 0 ↔ packetSize ≠ 0 ∧ ∃ r,
                processPacket cfg { s with tftpFlashing := true } buffer = some r
                  ∧ r.1 = .FINAL_ACK)
            ∧ (res.1 = 0 → .sockClose ∈ res.2.2))
      ∧ (2 ∣ cfg.SPM_PAGESIZE → ∃ res, tftpPoll cfg s packetSize buffer = some res) := by
  refine ⟨fun hp => by simp [tftpPoll, hp], ?_, ?_⟩
  · intro res hres
    by_cases hp : packetSize = 0
    · simp only [tftpPoll, hp, ne_eq, not_true_eq_false, if_false, Option.some.injEq] at hres
      subst hres
      refine ⟨Or.inr rfl, ?_, ?_⟩
      · constructor
        · intro h; cases h
        · rintro ⟨h, -⟩; exact absurd hp h
      · intro h; cases h
    · simp only [tftpPoll, ne_eq, hp, not_false_eq_true, if_true, Option.map_eq_some'] at hres
      obtain ⟨r, hr, hres⟩ := hres
      by_cases hf : r.1 = .FINAL_ACK
      · simp only [hf, if_true] at hres
        subst hres
        refine ⟨Or.inl rfl, ?_, ?_⟩
        · exact ⟨fun _ => ⟨hp, r, hr, hf⟩, fun _ => rfl⟩
        · intro _; simp
      · simp only [hf, if_false] at hres
        subst hres
        refine ⟨Or.inr rfl, ?_, ?_⟩
        · constructor
          · intro h; cases h
          · rintro ⟨-, r2, hr2, hf2⟩
            rw [hr] at hr2
            cases hr2
            exact absurd hf2 hf
        · intro h; cases h
  · intro heven
    by_cases hp : packetSize = 0
    · exact ⟨(1, s, []), by simp [tftpPoll, hp]⟩
    · obtain ⟨r, hr⟩ := processPacket_total cfg { s with tftpFlashing := true } buffer heven
      simp only [tftpPoll, ne_eq, hp, not_false_eq_true, if_true, hr, Option.map_some']
      exact ⟨_, rfl⟩

set_option maxRecDepth 1000000 in
/-- C16, witness: with nothing pending the poll returns 1 and changes
nothing; with a pending final DATA block it returns, and the value it returns
is 0. -/
theorem tftpPoll_result_witness :
    tftpPoll smallBuild (afterBlock 1 0xFF) 0 (dataFrameLen 4 2 [])
        = some (1, afterBlock 1 0xFF, [])
      ∧ (∃ res, tftpPoll smallBuild (afterBlock 1 0xFF) 12 (dataFrameLen 4 2 []) = some res)
      ∧ ((0 : Nat) = 0 ∨ (0 : Nat) = 1) :=
  ⟨(tftpPoll_result smallBuild (afterBlock 1 0xFF) 0 (dataFrameLen 4 2 [])).1 rfl,
    (tftpPoll_result smallBuild (afterBlock 1 0xFF) 12 (dataFrameLen 4 2 [])).2.2 (by decide),
    ((tftpPoll_result smallBuild (afterBlock 1 0xFF) 12 (dataFrameLen 4 2 [])).2.1
      (0, { lastPacket := 2, highPacket := 1, imgStat := 0xEE, tftpFlashing := true },
        [.resetTick, .eeprom_write_byte 0xEE, .netSend [0, 4, 0, 2], .sockClose])
      (by decide)).1⟩

/-- C17.  Handling one packet that is not a write request, `processPacket`
followed by `sendResponse`, never lowers `highPacket`, and changes
`lastPacket` only when the packet is dispatched to the DATA case, to that
packet's block number; over every sequence of handled packets without a
write request `highPacket` never decreases. -/
theorem transfer_state_invariant (cfg : Config) :
    (∀ (s : State) (buffer : List Nat) (r : ResponseCode × State × List Effect),
        parsedOpcode buffer ≠ TFTP_OPCODE_WRQ → handlePacket cfg s buffer = some r →
        s.highPacket ≤ r.2.1.highPacket
          ∧ (if tftpOpcode cfg s buffer = TFTP_OPCODE_DATA
              then r.2.1.lastPacket = tftpBlock buffer
              else r.2.1.lastPacket = s.lastPacket))
      ∧ (∀ (frames : List (List Nat)) (s : State) (res : List (ResponseCode × List Effect))
          (s' : State),
          (∀ f ∈ frames, parsedOpcode f ≠ TFTP_OPCODE_WRQ) →
          handleAll cfg s frames = some (res, s') → s.highPacket ≤ s'.highPacket) := by
  have step : ∀ (s : State) (buffer : List Nat) (r : ResponseCode × State × List Effect),
      parsedOpcode buffer ≠ TFTP_OPCODE_WRQ → handlePacket cfg s buffer = some r →
      s.highPacket ≤ r.2.1.highPacket
        ∧ (if tftpOpcode cfg s buffer = TFTP_OPCODE_DATA
            then r.2.1.lastPacket = tftpBlock buffer
            else r.2.1.lastPacket = s.lastPacket) := by
    intro s buffer r hw h
    simp only [handlePacket, Option.map_eq_some'] at h
    obtain ⟨p, hp, rfl⟩ := h
    obtain ⟨hhigh, hlast⟩ := processPacket_vars cfg s buffer p hw hp
    obtain ⟨h1, h2⟩ := sendResponse_vars p.2.1 p.1
    simp only
    rw [h1, h2]
    refine ⟨?_, hlast⟩
    rw [hhigh]
    split_ifs
    · exact le_max_left _ _
    · exact le_refl _
  refine ⟨step, ?_⟩
  intro frames
  induction frames with
  | nil =>
    intro s res s' _ h
    simp only [handleAll, Option.some.injEq, Prod.mk.injEq] at h
    rw [← h.2]
  | cons f fs ih =>
    intro s res s' hw h
    simp only [handleAll, Option.bind_eq_some, Option.map_eq_some'] at h
    obtain ⟨r, hr, t, ht, heq⟩ := h
    simp only [Prod.mk.injEq] at heq
    obtain ⟨-, hst⟩ := heq
    subst hst
    have h1 := (step s f r (hw f (List.mem_cons_self _ _)) hr).1
    have h2 := ih r.2.1 t.1 t.2 (fun g hg => hw g (List.mem_cons_of_mem _ hg)) ht
    exact le_trans h1 h2

set_option maxRecDepth 1000000 in
/-- C17, witness: after block 1, a read request and then the empty final
block 2 are handled; `highPacket` stays at 1, the read request leaves
`lastPacket` alone and the DATA packet sets it to 2. -/
theorem transfer_state_invariant_witness :
    ((afterBlock 1 0xFF).highPacket ≤ 1
        ∧ (if tftpOpcode smallBuild (afterBlock 1 0xFF) (dataFrameLen 4 2 []) = TFTP_OPCODE_DATA
            then 2 = tftpBlock (dataFrameLen 4 2 [])
            else 2 = (afterBlock 1 0xFF).lastPacket))
      ∧ (afterBlock 1 0xFF).highPacket ≤ 1 :=
  ⟨(transfer_state_invariant smallBuild).1 (afterBlock 1 0xFF) (dataFrameLen 4 2 [])
      (.FINAL_ACK, { lastPacket := 2, highPacket := 1, imgStat := 0xEE, tftpFlashing := true },
        [.resetTick, .eeprom_write_byte 0xEE, .netSend [0, 4, 0, 2]])
      (by decide) (by decide),
    (transfer_state_invariant smallBuild).2 [rrqFrame, dataFrameLen 4 2 []] (afterBlock 1 0xFF)
      [(.ERROR_UNKNOWN, [.netSend [8, 0, 5, 0, 0, 69, 114, 114, 111, 114]]),
        (.FINAL_ACK, [.resetTick, .eeprom_write_byte 0xEE, .netSend [0, 4, 0, 2]])]
      { lastPacket := 2, highPacket := 1, imgStat := 0xEE, tftpFlashing := true }
      (by decide) (by decide)⟩

/-- C18.  For a DATA packet that reaches the flash loop (dispatched to the
DATA case, past the full check and past the image validation) with a payload
length of at most 512, with `SPM_PAGESIZE` even and dividing 512: the
rounding loop terminates with `R`, the least multiple of `SPM_PAGESIZE` not
below the payload length; the flash loop terminates and emits exactly
`blockProgram`, which lists for each page `k = 0 .. R / SPM_PAGESIZE - 1` in
increasing order the `SPM_PAGESIZE / 2` fills at `A + k * SPM_PAGESIZE + 2 j`
with the little-endian word of the payload, then the erase of page
`A + k * SPM_PAGESIZE`, then its write; these are all the flash operations of
`processPacket` for the packet; and nothing is emitted when the payload is
empty. -/
theorem page_programming_sequence (cfg : Config) (s : State) (buffer : List Nat)
    (heven : 2 ∣ cfg.SPM_PAGESIZE) (hdvd : cfg.SPM_PAGESIZE ∣ 512)
    (hop : tftpOpcode cfg s buffer = TFTP_OPCODE_DATA)
    (hfull : isFull cfg buffer = false)
    (hL : packetLength buffer ≤ 512)
    (hreach : writeAddr cfg buffer = 0 →
      cfg.validImage (pageBase buffer) = true ∨ cfg.DEBUG_TFTP = true) :
    ∃ R, roundLoop cfg.SPM_PAGESIZE 65537 (packetLength buffer) = some R
      ∧ (packetLength buffer ≤ R ∧ R < packetLength buffer + cfg.SPM_PAGESIZE
          ∧ R % cfg.SPM_PAGESIZE = 0)
      ∧ flashLoop cfg (pageBase buffer) (writeAddr cfg buffer) R 32769 0
          = some (blockProgram cfg buffer (writeAddr cfg buffer) R)
      ∧ (∃ rc s', processPacket cfg s buffer = some (rc, s',
            [.resetTick] ++ blockProgram cfg buffer (writeAddr cfg buffer) R
              ++ (if rc = .FINAL_ACK then [.eeprom_write_byte cfg.EEPROM_IMG_OK_VALUE]
                  else [])))
      ∧ (packetLength buffer = 0 → blockProgram cfg buffer (writeAddr cfg buffer) R = []) := by
  have hpos : 0 < cfg.SPM_PAGESIZE := Nat.pos_of_dvd_of_pos hdvd (by norm_num)
  have hle : cfg.SPM_PAGESIZE ≤ 512 := Nat.le_of_dvd (by norm_num) hdvd
  obtain ⟨h, hS⟩ := heven
  obtain ⟨R, hr, -, -⟩ := roundLoop_terminates cfg.SPM_PAGESIZE 65537 (packetLength buffer)
    (packetLength_lt buffer) (by omega)
  have hleast := roundLoop_least cfg.SPM_PAGESIZE hpos 65537 (packetLength buffer) R
    (by omega) hr
  have hR512 := (roundLoop_bound cfg.SPM_PAGESIZE 512 (Nat.mod_eq_zero_of_dvd hdvd)
    (by norm_num) 65537 (packetLength buffer) R hL hr).2
  have hRn : R / cfg.SPM_PAGESIZE * cfg.SPM_PAGESIZE = R :=
    Nat.div_mul_cancel (Nat.dvd_of_mod_eq_zero hleast.2.2)
  have hm := modulus_ge cfg.address_t
  have hA : writeAddr cfg buffer + R ≤ cfg.address_t.modulus := by
    obtain ⟨q, hq⟩ := writeAddr_dvd cfg buffer
    have := writeAddr_lt cfg buffer
    omega
  have hnh : R / cfg.SPM_PAGESIZE * h ≤ 256 := by
    have e : R / cfg.SPM_PAGESIZE * cfg.SPM_PAGESIZE = 2 * (R / cfg.SPM_PAGESIZE * h) := by
      rw [hS]; ring
    omega
  have hops : flashLoop cfg (pageBase buffer) (writeAddr cfg buffer) R 32769 0
      = some (blockProgram cfg buffer (writeAddr cfg buffer) R) := by
    have hB := flashLoop_pages cfg buffer (writeAddr cfg buffer) (R / cfg.SPM_PAGESIZE) h hS
      (by omega) (by omega) (by omega) (R / cfg.SPM_PAGESIZE) 0 (by omega)
      (32768 - R / cfg.SPM_PAGESIZE * h)
    have hfuel : R / cfg.SPM_PAGESIZE * h + 1 + (32768 - R / cfg.SPM_PAGESIZE * h) = 32769 := by
      omega
    rw [hRn, hfuel, Nat.zero_mul] at hB
    rw [hB, blockProgram, List.range_eq_range']
  refine ⟨R, hr, hleast, hops, ?_, ?_⟩
  · have hbreak : (decide (writeAddr cfg buffer = 0) && !cfg.validImage (pageBase buffer)
        && !cfg.DEBUG_TFTP) = false := by
      by_cases hw : writeAddr cfg buffer = 0
      · rcases hreach hw with hv | hdbg
        · simp [hv]
        · simp [hdbg]
      · simp [hw]
    rw [processPacket_data cfg s buffer hop]
    simp only [processData, hfull, Bool.false_eq_true, if_false, hr, Option.some_bind, hbreak,
      hops, Option.map_some']
    generalize (if (decide (writeAddr cfg buffer = 0) && !cfg.validImage (pageBase buffer)) = true
      then ResponseCode.INVALID_IMAGE
      else if packetLength buffer < TFTP_DATA_SIZE then ResponseCode.FINAL_ACK
        else ResponseCode.ACK) = rc
    by_cases hrc : rc = .FINAL_ACK
    · refine ⟨rc, ?_⟩
      simp only [hrc, if_true]
      exact ⟨_, rfl⟩
    · refine ⟨rc, ?_⟩
      simp only [hrc, if_false, List.append_nil]
      exact ⟨_, rfl⟩
  · intro h0
    have hR0 : R = 0 := by
      have h1 : R < cfg.SPM_PAGESIZE := by omega
      exact Nat.eq_zero_of_dvd_of_lt (Nat.dvd_of_mod_eq_zero hleast.2.2) h1
    simp [blockProgram, hR0]

set_option maxRecDepth 1000000 in
/-- C18, witness: block 2 with 300 payload bytes on the build with 128-byte
pages, after block 1 has been acknowledged. -/
theorem page_programming_sequence_witness :
    ∃ R, roundLoop smallBuild.SPM_PAGESIZE 65537
          (packetLength (dataFrame 2 (List.replicate 300 7))) = some R
      ∧ (packetLength (dataFrame 2 (List.replicate 300 7)) ≤ R
          ∧ R < packetLength (dataFrame 2 (List.replicate 300 7)) + smallBuild.SPM_PAGESIZE
          ∧ R % smallBuild.SPM_PAGESIZE = 0)
      ∧ flashLoop smallBuild (pageBase (dataFrame 2 (List.replicate 300 7)))
          (writeAddr smallBuild (dataFrame 2 (List.replicate 300 7))) R 32769 0
          = some (blockProgram smallBuild (dataFrame 2 (List.replicate 300 7))
              (writeAddr smallBuild (dataFrame 2 (List.replicate 300 7))) R)
      ∧ (∃ rc s', processPacket smallBuild (afterBlock 1 0xFF)
            (dataFrame 2 (List.replicate 300 7)) = some (rc, s',
            [.resetTick] ++ blockProgram smallBuild (dataFrame 2 (List.replicate 300 7))
                (writeAddr smallBuild (dataFrame 2 (List.replicate 300 7))) R
              ++ (if rc = .FINAL_ACK then [.eeprom_write_byte smallBuild.EEPROM_IMG_OK_VALUE]
                  else [])))
      ∧ (packetLength (dataFrame 2 (List.replicate 300 7)) = 0 →
          blockProgram smallBuild (dataFrame 2 (List.replicate 300 7))
            (writeAddr smallBuild (dataFrame 2 (List.replicate 300 7))) R = []) :=
  page_programming_sequence smallBuild (afterBlock 1 0xFF) (dataFrame 2 (List.replicate 300 7))
    (by decide) (by decide) (by decide) (by decide) (by decide) (by decide)

/-- C19.  For every build, whether or not `MAX_ADDR` is a multiple of 512, a
packet dispatched to the DATA case with block number at least 1 and declared
length at least 4 has a declared length of at most 516 and satisfies
`writeAddr + payload_len <= MAX_ADDR`; the full check is false and
`processPacket` does not return `ERROR_FULL` for it.  A DATA packet whose
block number exceeds `MAX_ADDR / 512` is answered `ERROR_INVALID` by way of
the pre-filter. -/
theorem full_error_unreachable (cfg : Config) (s : State) (buffer : List Nat) :
    (tftpOpcode cfg s buffer = TFTP_OPCODE_DATA → 1 ≤ tftpBlock buffer →
        4 ≤ tftpDataLen buffer →
        tftpDataLen buffer ≤ 516
          ∧ writeAddr cfg buffer + (tftpDataLen buffer - 4) ≤ cfg.MAX_ADDR
          ∧ isFull cfg buffer = false
          ∧ ∀ r, processPacket cfg s buffer = some r → r.1 ≠ .ERROR_FULL)
      ∧ (parsedOpcode buffer = TFTP_OPCODE_DATA → cfg.MAX_ADDR / 512 < tftpBlock buffer →
          processPacket cfg s buffer
            = some (.ERROR_INVALID, s, [.sockInit (dataPort cfg buffer)])) := by
  constructor
  · intro hop hB h4
    obtain ⟨-, hBmax, hlen⟩ := tftpOpcode_data_imp cfg s buffer hop
    have hpl := packetLength_of_len buffer h4
    have hfull := isFull_false cfg buffer hB hBmax (by omega)
    have hwa := writeAddr_le cfg buffer hB
    refine ⟨hlen, by omega, hfull, ?_⟩
    intro r hr hfullr
    rw [processPacket_data cfg s buffer hop] at hr
    unfold processData at hr
    simp only [hfull, Bool.false_eq_true, if_false, Option.bind_eq_some] at hr
    obtain ⟨len, -, hr⟩ := hr
    by_cases hinv : (decide (writeAddr cfg buffer = 0) && !cfg.validImage (pageBase buffer)
        && !cfg.DEBUG_TFTP) = true
    · simp only [hinv, if_true, Option.some.injEq] at hr
      subst hr
      cases hfullr
    · simp only [hinv, Bool.false_eq_true, if_false, Option.map_eq_some'] at hr
      obtain ⟨ops, -, hr⟩ := hr
      subst hr
      split_ifs at hfullr
  · intro hop hbig
    have hne : tftpOpcode cfg s buffer ≠ TFTP_OPCODE_DATA := by
      intro h
      have := (tftpOpcode_data_iff cfg s buffer hop).1 h
      omega
    have hu : tftpOpcode cfg s buffer = TFTP_OPCODE_UKN := by
      rcases tftpOpcode_cases cfg s buffer with hu | hp
      · exact hu
      · exact absurd (hp.trans hop) hne
    apply processPacket_default <;> rw [hu] <;> decide

set_option maxRecDepth 1000000 in
/-- C19, witness: block 56, the last block of the build with `MAX_ADDR =
0x7000`, passes the full check with 512 bytes; block 57 is answered
`ERROR_INVALID`. -/
theorem full_error_unreachable_witness :
    (tftpDataLen (dataFrame 56 validBlock) ≤ 516
        ∧ writeAddr smallBuild (dataFrame 56 validBlock)
            + (tftpDataLen (dataFrame 56 validBlock) - 4) ≤ smallBuild.MAX_ADDR
        ∧ isFull smallBuild (dataFrame 56 validBlock) = false
        ∧ ∀ r, processPacket smallBuild (afterBlock 55 0xFF) (dataFrame 56 validBlock) = some r →
            r.1 ≠ .ERROR_FULL)
      ∧ processPacket smallBuild (afterBlock 56 0xFF) (dataFrame 57 validBlock)
          = some (.ERROR_INVALID, afterBlock 56 0xFF,
              [.sockInit (dataPort smallBuild (dataFrame 57 validBlock))]) :=
  ⟨(full_error_unreachable smallBuild (afterBlock 55 0xFF) (dataFrame 56 validBlock)).1
      (by decide) (by decide) (by decide),
    (full_error_unreachable smallBuild (afterBlock 56 0xFF) (dataFrame 57 validBlock)).2
      (by decide) (by decide)⟩

/-- C20.  In the build with `TFTP_RANDOM_PORT`, the port that `processPacket`
passes to `sockInit` equals `0xFF00 + (255 - b5)` for all header bytes
`b4 = buffer[4]` and `b5 = buffer[5]`: its high byte is `0xFF`, two packets
with the same `b5` get the same port whatever their `b4`, and this is the
port of the `sockInit` both in the WRQ case and in the unknown-opcode
case. -/
theorem random_port_high_byte (cfg : Config) (s : State) (buffer : List Nat)
    (hrp : cfg.TFTP_RANDOM_PORT = true) :
    dataPort cfg buffer = 0xFF00 + (255 - byteAt buffer 5)
      ∧ dataPort cfg buffer / 256 = 0xFF
      ∧ (∀ other : List Nat, byteAt other 5 = byteAt buffer 5 →
          dataPort cfg other = dataPort cfg buffer)
      ∧ (tftpOpcode cfg s buffer = TFTP_OPCODE_WRQ →
          processPacket cfg s buffer = some (.ACK,
            { s with lastPacket := 0, highPacket := 0, imgStat := cfg.EEPROM_IMG_BAD_VALUE },
            [.resetTick, .eeprom_write_byte cfg.EEPROM_IMG_BAD_VALUE,
              .sockInit (0xFF00 + (255 - byteAt buffer 5))]))
      ∧ (tftpOpcode cfg s buffer ≠ TFTP_OPCODE_RRQ → tftpOpcode cfg s buffer ≠ TFTP_OPCODE_WRQ →
          tftpOpcode cfg s buffer ≠ TFTP_OPCODE_DATA → tftpOpcode cfg s buffer ≠ TFTP_OPCODE_ACK →
          tftpOpcode cfg s buffer ≠ TFTP_OPCODE_ERROR →
          processPacket cfg s buffer
            = some (.ERROR_INVALID, s, [.sockInit (0xFF00 + (255 - byteAt buffer 5))])) := by
  have hport : ∀ b : List Nat, dataPort cfg b = 0xFF00 + (255 - byteAt b 5) := by
    intro b
    have hb4 : byteAt b 4 < 256 := Nat.mod_lt _ (by norm_num)
    have hb5 : byteAt b 5 < 256 := Nat.mod_lt _ (by norm_num)
    simp only [dataPort, hrp, if_true]
    exact random_port_value _ _ hb4 hb5
  have hb5 : byteAt buffer 5 < 256 := Nat.mod_lt _ (by norm_num)
  refine ⟨hport buffer, by rw [hport buffer]; omega, ?_, ?_, ?_⟩
  · intro other ho
    rw [hport other, hport buffer, ho]
  · intro hw
    rw [← hport buffer]
    simp [processPacket, hw, TFTP_OPCODE_WRQ, TFTP_OPCODE_RRQ]
  · intro h1 h2 h3 h4 h5
    rw [← hport buffer]
    exact processPacket_default cfg s buffer h1 h2 h3 h4 h5

set_option maxRecDepth 1000000 in
/-- C20, witness: a write request from client port `0xC001` is answered from
port `0xFFFE`, and a packet with opcode 9 from the same client port
re-initialises the socket on the same port. -/
theorem random_port_high_byte_witness :
    dataPort randomPortBuild wrqFrame = 0xFF00 + (255 - byteAt wrqFrame 5)
      ∧ dataPort randomPortBuild wrqFrame / 256 = 0xFF
      ∧ processPacket randomPortBuild (powerOn 0xFF) wrqFrame = some (.ACK,
          { powerOn 0xFF with
            lastPacket := 0, highPacket := 0,
            imgStat := randomPortBuild.EEPROM_IMG_BAD_VALUE },
          [.resetTick, .eeprom_write_byte randomPortBuild.EEPROM_IMG_BAD_VALUE,
            .sockInit (0xFF00 + (255 - byteAt wrqFrame 5))])
      ∧ processPacket randomPortBuild (powerOn 0xFF) (mkFrame 4 9 [0, 0])
          = some (.ERROR_INVALID, powerOn 0xFF,
              [.sockInit (0xFF00 + (255 - byteAt (mkFrame 4 9 [0, 0]) 5))]) :=
  ⟨(random_port_high_byte randomPortBuild (powerOn 0xFF) wrqFrame rfl).1,
    (random_port_high_byte randomPortBuild (powerOn 0xFF) wrqFrame rfl).2.1,
    (random_port_high_byte randomPortBuild (powerOn 0xFF) wrqFrame rfl).2.2.2.1 (by decide),
    (random_port_high_byte randomPortBuild (powerOn 0xFF) (mkFrame 4 9 [0, 0]) rfl).2.2.2.2
      (by decide) (by decide) (by decide) (by decide) (by decide)⟩

end Tftp
